import Mathlib

/-!
# Interrupt-driven I2C master (`xpcc::stm32::I2c2`)

A shallow embedding of `src/xpcc/architecture/platform/cortex_m3/stm32/i2c/i2c_2.cpp`.

The file-scope `static volatile` variables of the driver and the memory-mapped
registers of the `I2C2` peripheral are the fields of one `State` record; every
function of the driver is a state transformer.  Each store to a peripheral
register is also appended to `State.log`, and each store through `readPointer`
to `State.stores`, so that the order and the number of accesses can be stated.

The bit masks `I2C_SR1_*`, `I2C_CR1_*`, `I2C_CR2_*` and the direction constants
`xpcc::i2c::READ` / `xpcc::i2c::WRITE` come from headers that are not part of
the sources; they are a parameter (`Hw`) of every definition that uses them.
-/

namespace I2c2

/-- The enumeration `xpcc::i2c::BusyState`. -/
inductive BusyState where
  | FREE
  | BUSY
  | OCCUPIED
  deriving DecidableEq, Repr

/-- The enumeration `xpcc::i2c::BusState`. -/
inductive BusState where
  | BUS_STANDBY
  | BUS_HOLD
  | BUS_WRITE
  | BUS_STOPPED
  | BUS_RESET
  deriving DecidableEq, Repr

/-- The enumeration `xpcc::i2c::ReadParameter`. -/
inductive ReadParameter where
  | READ_STOP
  | READ_RESTART
  deriving DecidableEq, Repr

/-- Constants of the device header and of `xpcc::i2c` used by the driver; their
values are not fixed by the sources, so they are a parameter. -/
structure Hw where
  I2C_SR1_SB : Nat
  I2C_SR1_ADDR : Nat
  I2C_SR1_BTF : Nat
  I2C_SR1_RXNE : Nat
  I2C_SR1_TXE : Nat
  I2C_SR1_BERR : Nat
  I2C_SR1_ARLO : Nat
  I2C_SR1_AF : Nat
  I2C_SR2_TRA : Nat
  I2C_CR1_START : Nat
  I2C_CR1_STOP : Nat
  I2C_CR1_ACK : Nat
  I2C_CR2_ITERREN : Nat
  I2C_CR2_ITEVTEN : Nat
  I2C_CR2_ITBUFEN : Nat
  READ : Nat
  WRITE : Nat

/-- The mask `I2C_CR2_ITEVTEN | I2C_CR2_ITBUFEN | I2C_CR2_ITERREN`. -/
def Hw.itMask (hw : Hw) : Nat :=
  hw.I2C_CR2_ITEVTEN ||| hw.I2C_CR2_ITBUFEN ||| hw.I2C_CR2_ITERREN

/-- The values the STM32F10x device header and `xpcc::i2c` give the constants;
used to evaluate the driver on concrete inputs. -/
def stm32f10x : Hw where
  I2C_SR1_SB := 0x0001
  I2C_SR1_ADDR := 0x0002
  I2C_SR1_BTF := 0x0004
  I2C_SR1_RXNE := 0x0040
  I2C_SR1_TXE := 0x0080
  I2C_SR1_BERR := 0x0100
  I2C_SR1_ARLO := 0x0200
  I2C_SR1_AF := 0x0400
  I2C_SR2_TRA := 0x0004
  I2C_CR1_START := 0x0100
  I2C_CR1_STOP := 0x0200
  I2C_CR1_ACK := 0x0400
  I2C_CR2_ITERREN := 0x0100
  I2C_CR2_ITEVTEN := 0x0200
  I2C_CR2_ITBUFEN := 0x0400
  READ := 0x01
  WRITE := 0x00

/-- The peripheral registers the driver stores to. -/
inductive Reg where
  | CR1
  | CR2
  | DR
  | SR1
  deriving DecidableEq, Repr

/-- One store to a peripheral register, in the form of the source statement:
`reg = v`, `reg |= m` or `reg &= ~m`. -/
inductive Access where
  | assign (r : Reg) (v : Nat)
  | orEq (r : Reg) (m : Nat)
  | andNotEq (r : Reg) (m : Nat)
  deriving DecidableEq, Repr

/-- The driver variables (lines 43-57 of the source), the registers of `I2C2`,
the byte memory the two cursors point into, and the record of stores. -/
structure State where
  bytes_left : Nat
  readPointer : Nat
  writePointer : Nat
  reading : Bool
  restartAfterReading : Bool
  address : Nat
  busyState : BusyState
  busState : BusState
  startConditionGeneratedWaitingForAddress : Bool
  waitForStartConditionAfterWriteFollowedByRestart : Bool
  CR1 : Nat
  CR2 : Nat
  DR : Nat
  SR1 : Nat
  SR2 : Nat
  mem : Nat → Nat
  log : List Access
  stores : List (Nat × Nat)

/-- The value of `r | m` for a 16-bit register `r` and a 16-bit mask `m`. -/
def orBits (r m : Nat) : Nat := r ||| m

/-- The value of `r & ~m` stored back to a 16-bit register: the operands are
promoted to 32-bit `int`, the mask is complemented there, and the result is
truncated to 16 bits by the store. -/
def andNotBits (r m : Nat) : Nat := (r &&& (0xFFFFFFFF ^^^ m)) % 65536

/-- The statement `I2C2->CR1 |= m`. -/
def orCR1 (m : Nat) (s : State) : State :=
  { s with CR1 := orBits s.CR1 m, log := s.log ++ [Access.orEq Reg.CR1 m] }

/-- The statement `I2C2->CR1 &= ~m`. -/
def andNotCR1 (m : Nat) (s : State) : State :=
  { s with CR1 := andNotBits s.CR1 m, log := s.log ++ [Access.andNotEq Reg.CR1 m] }

/-- The statement `I2C2->CR2 |= m`. -/
def orCR2 (m : Nat) (s : State) : State :=
  { s with CR2 := orBits s.CR2 m, log := s.log ++ [Access.orEq Reg.CR2 m] }

/-- The statement `I2C2->CR2 &= ~m`. -/
def andNotCR2 (m : Nat) (s : State) : State :=
  { s with CR2 := andNotBits s.CR2 m, log := s.log ++ [Access.andNotEq Reg.CR2 m] }

/-- The statement `I2C2->DR = v`. -/
def writeDR (v : Nat) (s : State) : State :=
  { s with DR := v % 65536, log := s.log ++ [Access.assign Reg.DR v] }

/-- The statement `I2C2->SR1 = v`. -/
def writeSR1 (v : Nat) (s : State) : State :=
  { s with SR1 := v % 65536, log := s.log ++ [Access.assign Reg.SR1 v] }

/-- The statements `--bytes_left; I2C2->DR = *(writePointer++); if (bytes_left==0)
I2C2->CR2 &= ~I2C_CR2_ITBUFEN;` (lines 109-113 and 117-121). -/
def sendByte (hw : Hw) (s : State) : State :=
  let s := { s with bytes_left := (s.bytes_left + 255) % 256 }
  let v := s.mem s.writePointer % 256
  let s := { s with writePointer := s.writePointer + 1 }
  let s := writeDR v s
  if s.bytes_left = 0 then andNotCR2 hw.I2C_CR2_ITBUFEN s else s

/-- The block run when `tmp & I2C_SR1_SB` (lines 64-80). -/
def evStart (hw : Hw) (s : State) : State :=
  if !s.startConditionGeneratedWaitingForAddress then
    let s := { s with startConditionGeneratedWaitingForAddress := true }
    let s := andNotCR2 hw.itMask s
    let s := if s.busState ≠ BusState.BUS_HOLD then
      { s with busState := BusState.BUS_STANDBY } else s
    { s with busyState := BusyState.OCCUPIED }
  else
    let s := { s with startConditionGeneratedWaitingForAddress := false }
    writeDR (s.address ||| (if s.reading then hw.READ else hw.WRITE)) s

/-- The statements of lines 89-93 and 132-136: acknowledge off, then a new start
or a stop. -/
def nackAndFinish (hw : Hw) (s : State) : State :=
  let s := andNotCR1 hw.I2C_CR1_ACK s
  if s.restartAfterReading then orCR1 hw.I2C_CR1_START s
  else orCR1 hw.I2C_CR1_STOP s

/-- The block run when `tmp & I2C_SR1_ADDR` (lines 82-99). -/
def evAddr (hw : Hw) (s : State) : State :=
  let tmp2 := s.SR2
  if tmp2 &&& hw.I2C_SR2_TRA ≠ 0 then s
  else if s.bytes_left ≤ 1 then nackAndFinish hw s
  else orCR1 hw.I2C_CR1_ACK s

/-- The block run when `tmp & I2C_SR1_TXE` (lines 100-123). -/
def evTxe (hw : Hw) (tmp : Nat) (s : State) : State :=
  if tmp &&& hw.I2C_SR1_BTF ≠ 0 then
    if s.bytes_left = 0 then
      let s := andNotCR2 hw.itMask s
      let s := { s with busyState := BusyState.OCCUPIED }
      { s with busState := BusState.BUS_WRITE }
    else sendByte hw s
  else sendByte hw s

/-- The block run when `tmp & I2C_SR1_RXNE` (lines 125-150). -/
def evRxne (hw : Hw) (s : State) : State :=
  let tmp2 := s.DR
  let s := { s with bytes_left := (s.bytes_left + 255) % 256 }
  let s :=
    if s.bytes_left = 1 then nackAndFinish hw s
    else if s.bytes_left = 0 then
      if s.restartAfterReading then { s with busState := BusState.BUS_HOLD }
      else
        let s := { s with busState := BusState.BUS_STOPPED }
        { s with busyState := BusyState.OCCUPIED }
    else s
  { s with
    mem := Function.update s.mem s.readPointer (tmp2 &&& 0xff)
    stores := s.stores ++ [(s.readPointer, tmp2 &&& 0xff)]
    readPointer := s.readPointer + 1 }

/-- The event interrupt handler `I2C2_EV_IRQHandler` (lines 59-151). -/
def I2C2_EV_IRQHandler (hw : Hw) (s : State) : State :=
  let tmp := s.SR1
  let s := if tmp &&& hw.I2C_SR1_SB ≠ 0 then evStart hw s else s
  let s := if tmp &&& hw.I2C_SR1_ADDR ≠ 0 then evAddr hw s else s
  let s := if tmp &&& hw.I2C_SR1_TXE ≠ 0 then evTxe hw tmp s else s
  if tmp &&& hw.I2C_SR1_RXNE ≠ 0 then evRxne hw s else s

/-- The error interrupt handler `I2C2_ER_IRQHandler` (lines 153-181). -/
def I2C2_ER_IRQHandler (hw : Hw) (s : State) : State :=
  let tmp := s.SR1
  let s := if tmp &&& hw.I2C_SR1_BERR ≠ 0 then
    let s := orCR1 hw.I2C_CR1_STOP s
    let s := { s with busyState := BusyState.OCCUPIED }
    { s with busState := BusState.BUS_RESET } else s
  let s := if tmp &&& hw.I2C_SR1_AF ≠ 0 then
    let s := orCR1 hw.I2C_CR1_STOP s
    let s := { s with busyState := BusyState.OCCUPIED }
    { s with busState := BusState.BUS_RESET } else s
  let s := if tmp &&& hw.I2C_SR1_ARLO ≠ 0 then
    let s := { s with busyState := BusyState.OCCUPIED }
    { s with busState := BusState.BUS_RESET } else s
  let s := writeSR1 0 s
  let s := andNotCR2 hw.itMask s
  { s with waitForStartConditionAfterWriteFollowedByRestart := false }

/-- The method `xpcc::stm32::I2c2::start` (lines 206-224): result and next state. -/
def start (hw : Hw) (slaveAddress : Nat) (s : State) : Bool × State :=
  if s.busyState = BusyState.FREE then
    let s := { s with busyState := BusyState.BUSY }
    let s := { s with address := slaveAddress }
    let s := if s.SR1 &&& hw.I2C_SR1_SB ≠ 0 then writeDR 0xff s else s
    let s := orCR1 hw.I2C_CR1_START s
    let s := { s with
      waitForStartConditionAfterWriteFollowedByRestart := (s.CR2 &&& hw.itMask) == 0 }
    (true, s)
  else (false, s)

/-- The method `xpcc::stm32::I2c2::restart` (lines 226-234). -/
def restart (hw : Hw) (slaveAddress : Nat) (s : State) : State :=
  let s := { s with address := slaveAddress }
  let s := { s with busyState := BusyState.BUSY }
  let s := orCR1 hw.I2C_CR1_START s
  { s with
    waitForStartConditionAfterWriteFollowedByRestart := (s.CR2 &&& hw.itMask) == 0 }

/-- The method `xpcc::stm32::I2c2::stop` (lines 236-255). -/
def stop (hw : Hw) (s : State) : State :=
  let s :=
    if (s.busState ≠ BusState.BUS_STOPPED ∧ s.busState ≠ BusState.BUS_RESET) ∨
        s.busState = BusState.BUS_STANDBY then
      let s := orCR1 hw.I2C_CR1_STOP s
      if s.startConditionGeneratedWaitingForAddress then
        { s with startConditionGeneratedWaitingForAddress := false }
      else s
    else s
  let s := andNotCR2 hw.itMask s
  { s with busyState := BusyState.FREE }

/-- The method `xpcc::stm32::I2c2::read` (lines 257-268); `size` is a `std::size_t`
stored into the 8-bit `bytes_left`. -/
def read (hw : Hw) (data : Nat) (size : Nat) (param : ReadParameter) (s : State) : State :=
  let s := { s with reading := true }
  let s := { s with readPointer := data }
  let s := { s with bytes_left := size % 256 }
  let s := { s with busyState := BusyState.BUSY }
  let s := { s with restartAfterReading := decide (param = ReadParameter.READ_RESTART) }
  orCR2 hw.itMask s

/-- The method `xpcc::stm32::I2c2::write` (lines 270-280). -/
def write (hw : Hw) (data : Nat) (size : Nat) (s : State) : State :=
  let s := { s with reading := false }
  let s := { s with writePointer := data }
  let s := { s with bytes_left := size % 256 }
  let s := { s with busyState := BusyState.BUSY }
  orCR2 hw.itMask s

/-- The method `xpcc::stm32::I2c2::getBusyState` (lines 282-298): result and next
state. -/
def getBusyState (hw : Hw) (s : State) : BusyState × State :=
  let tmp := s.CR1
  let s :=
    if s.waitForStartConditionAfterWriteFollowedByRestart ∧ tmp &&& hw.I2C_CR1_START = 0 then
      let s := { s with waitForStartConditionAfterWriteFollowedByRestart := false }
      orCR2 hw.itMask s
    else s
  if tmp &&& hw.I2C_CR1_STOP ≠ 0 then (BusyState.BUSY, s) else (s.busyState, s)

/-- The method `xpcc::stm32::I2c2::getBusState` (lines 300-304). -/
def getBusState (s : State) : BusState := s.busState

/-- The register an access stores to. -/
def Access.reg : Access → Reg
  | Access.assign r _ => r
  | Access.orEq r _ => r
  | Access.andNotEq r _ => r

/-- The values assigned to the data register, in order, among a list of accesses. -/
def drWrites : List Access → List Nat
  | [] => []
  | Access.assign Reg.DR v :: l => v :: drWrites l
  | _ :: l => drWrites l

/-- One interrupt request as the hardware presents it: the contents of the two
status registers and of the data register when the handler is entered. -/
structure Event where
  sr1 : Nat
  sr2 : Nat
  dr : Nat
  deriving DecidableEq, Repr

/-- The hardware raises the event interrupt with the registers of `e`, and the
handler runs to completion. -/
def raise (hw : Hw) (s : State) (e : Event) : State :=
  I2C2_EV_IRQHandler hw { s with SR1 := e.sr1, SR2 := e.sr2, DR := e.dr }

/-- A sequence of event interrupts, handled one after the other. -/
def raiseAll (hw : Hw) (s : State) (es : List Event) : State :=
  es.foldl (raise hw) s

/-- The register accesses made by the handler during the one invocation for `e`
entered in state `s`. -/
def invocationLog (hw : Hw) (s : State) (e : Event) : List Access :=
  (raise hw s e).log.drop s.log.length

/-- Data register empty, byte transfer not finished, no other handled flag. -/
def Event.isTxe (hw : Hw) (e : Event) : Prop :=
  e.sr1 &&& hw.I2C_SR1_TXE ≠ 0 ∧ e.sr1 &&& hw.I2C_SR1_BTF = 0 ∧
  e.sr1 &&& hw.I2C_SR1_SB = 0 ∧ e.sr1 &&& hw.I2C_SR1_ADDR = 0 ∧
  e.sr1 &&& hw.I2C_SR1_RXNE = 0

/-- Data register empty with byte transfer finished, no other handled flag. -/
def Event.isTxeBtf (hw : Hw) (e : Event) : Prop :=
  e.sr1 &&& hw.I2C_SR1_TXE ≠ 0 ∧ e.sr1 &&& hw.I2C_SR1_BTF ≠ 0 ∧
  e.sr1 &&& hw.I2C_SR1_SB = 0 ∧ e.sr1 &&& hw.I2C_SR1_ADDR = 0 ∧
  e.sr1 &&& hw.I2C_SR1_RXNE = 0

/-- Address acknowledged in receive direction (`TRA` clear), no other handled flag. -/
def Event.isAddrRx (hw : Hw) (e : Event) : Prop :=
  e.sr1 &&& hw.I2C_SR1_ADDR ≠ 0 ∧ e.sr2 &&& hw.I2C_SR2_TRA = 0 ∧
  e.sr1 &&& hw.I2C_SR1_SB = 0 ∧ e.sr1 &&& hw.I2C_SR1_TXE = 0 ∧
  e.sr1 &&& hw.I2C_SR1_RXNE = 0

/-- Data received: the data register holds one byte, no other handled flag. -/
def Event.isRxne (hw : Hw) (e : Event) : Prop :=
  e.sr1 &&& hw.I2C_SR1_RXNE ≠ 0 ∧ e.sr1 &&& hw.I2C_SR1_SB = 0 ∧
  e.sr1 &&& hw.I2C_SR1_ADDR = 0 ∧ e.sr1 &&& hw.I2C_SR1_TXE = 0 ∧ e.dr < 256

instance (hw : Hw) (e : Event) : Decidable (e.isTxe hw) := by
  unfold Event.isTxe; infer_instance

instance (hw : Hw) (e : Event) : Decidable (e.isTxeBtf hw) := by
  unfold Event.isTxeBtf; infer_instance

instance (hw : Hw) (e : Event) : Decidable (e.isAddrRx hw) := by
  unfold Event.isAddrRx; infer_instance

instance (hw : Hw) (e : Event) : Decidable (e.isRxne hw) := by
  unfold Event.isRxne; infer_instance

/-- A state after power-up: all driver variables zero, `busyState` is `FREE`,
only the frequency field of `CR2` and the enable bit of `CR1` set, memory zero. -/
def powerUp : State where
  bytes_left := 0
  readPointer := 0
  writePointer := 0
  reading := false
  restartAfterReading := false
  address := 0
  busyState := BusyState.FREE
  busState := BusState.BUS_STANDBY
  startConditionGeneratedWaitingForAddress := false
  waitForStartConditionAfterWriteFollowedByRestart := false
  CR1 := 1
  CR2 := 36
  DR := 0
  SR1 := 0
  SR2 := 0
  mem := fun _ => 0
  log := []
  stores := []

/-- A state in which a transfer is outstanding. -/
def busyExample : State := { powerUp with busyState := BusyState.BUSY }

/-- A free state in which the start-sent flag is still latched in `SR1`. -/
def latchedExample : State := { powerUp with SR1 := 0x0001 }

/-- A state with every interrupt source enabled, a stop pending and a fault latched. -/
def armedExample : State :=
  { powerUp with
    busyState := BusyState.OCCUPIED
    busState := BusState.BUS_WRITE
    waitForStartConditionAfterWriteFollowedByRestart := true
    startConditionGeneratedWaitingForAddress := true
    bytes_left := 3
    CR1 := 0x0201
    CR2 := 0x0724
    SR1 := 0x0400 }

/-- A free state whose memory holds the bytes 0x01, 0x02 at addresses 100 and 101. -/
def bufferExample : State :=
  { powerUp with mem := fun a => if a = 100 then 0x01 else if a = 101 then 0x02 else 0 }

/-- A data-register-empty event (only TXE set in SR1). -/
def txeEvent : Event := { sr1 := 0x0080, sr2 := 0x0004, dr := 0 }

/-- A data-register-empty event with byte transfer finished (TXE and BTF set). -/
def txeBtfEvent : Event := { sr1 := 0x0084, sr2 := 0x0004, dr := 0 }

/-- A start-sent event (only SB set in SR1). -/
def sbEvent : Event := { sr1 := 0x0001, sr2 := 0, dr := 0 }

/-- An address-acknowledged event in transmit direction (ADDR set, TRA set). -/
def addrTxEvent : Event := { sr1 := 0x0002, sr2 := 0x0004, dr := 0 }

/-- An address-acknowledged event in receive direction (ADDR set, TRA clear). -/
def addrRxEvent : Event := { sr1 := 0x0002, sr2 := 0, dr := 0 }

/-- A data-received event delivering the byte `r` (only RXNE set in SR1). -/
def rxneEvent (r : Nat) : Event := { sr1 := 0x0040, sr2 := 0, dr := r }

/-- One step of the system around the driver: a call of the control surface, an
event interrupt presenting `e`, or an error interrupt presenting `sr1` in SR1. -/
inductive Step where
  | start (slaveAddress : Nat)
  | restart (slaveAddress : Nat)
  | stop
  | read (data : Nat) (size : Nat) (param : ReadParameter)
  | write (data : Nat) (size : Nat)
  | getBusyState
  | getBusState
  | event (e : Event)
  | error (sr1 : Nat)
  deriving DecidableEq, Repr

/-- The state after one step. -/
def Step.apply (hw : Hw) (s : State) : Step → State
  | Step.start a => (I2c2.start hw a s).2
  | Step.restart a => I2c2.restart hw a s
  | Step.stop => I2c2.stop hw s
  | Step.read data size param => I2c2.read hw data size param s
  | Step.write data size => I2c2.write hw data size s
  | Step.getBusyState => (I2c2.getBusyState hw s).2
  | Step.getBusState => s
  | Step.event e => raise hw s e
  | Step.error sr1 => I2C2_ER_IRQHandler hw { s with SR1 := sr1 }

/-- The state after a sequence of steps. -/
def run (hw : Hw) (s : State) (steps : List Step) : State :=
  steps.foldl (Step.apply hw) s

/-- A power-up state: BusyState FREE, both flags false, no interrupt-enable bit set. -/
def isPowerUp (hw : Hw) (s : State) : Prop :=
  s.busyState = BusyState.FREE ∧
  s.startConditionGeneratedWaitingForAddress = false ∧
  s.waitForStartConditionAfterWriteFollowedByRestart = false ∧
  s.CR2 &&& hw.itMask = 0

instance (hw : Hw) (s : State) : Decidable (isPowerUp hw s) := by
  unfold isPowerUp; infer_instance

/-- At least one of ITEVTEN, ITBUFEN, ITERREN is set in CR2. -/
def interruptsEnabled (hw : Hw) (s : State) : Prop := s.CR2 &&& hw.itMask ≠ 0

instance (hw : Hw) (s : State) : Decidable (interruptsEnabled hw s) := by
  unfold interruptsEnabled; infer_instance

/-- The number of `--bytes_left` statements the event handler executes when entered in
`s`: one in the TXE block unless BTF is set with no byte left, one in the RXNE block. -/
def bytesHandled (hw : Hw) (s : State) : Nat :=
  (if s.SR1 &&& hw.I2C_SR1_TXE ≠ 0 ∧
      ¬ (s.SR1 &&& hw.I2C_SR1_BTF ≠ 0 ∧ s.bytes_left = 0) then 1 else 0) +
  (if s.SR1 &&& hw.I2C_SR1_RXNE ≠ 0 then 1 else 0)

/-- Only the start-sent flag among the flags the event handler tests. -/
def Event.isSb (hw : Hw) (e : Event) : Prop :=
  e.sr1 &&& hw.I2C_SR1_SB ≠ 0 ∧ e.sr1 &&& hw.I2C_SR1_ADDR = 0 ∧
  e.sr1 &&& hw.I2C_SR1_TXE = 0 ∧ e.sr1 &&& hw.I2C_SR1_RXNE = 0

/-- Address acknowledged in transmit direction (`TRA` set), no other handled flag. -/
def Event.isAddrTx (hw : Hw) (e : Event) : Prop :=
  e.sr1 &&& hw.I2C_SR1_ADDR ≠ 0 ∧ e.sr2 &&& hw.I2C_SR2_TRA ≠ 0 ∧
  e.sr1 &&& hw.I2C_SR1_SB = 0 ∧ e.sr1 &&& hw.I2C_SR1_TXE = 0 ∧
  e.sr1 &&& hw.I2C_SR1_RXNE = 0

instance (hw : Hw) (e : Event) : Decidable (e.isSb hw) := by
  unfold Event.isSb; infer_instance

instance (hw : Hw) (e : Event) : Decidable (e.isAddrTx hw) := by
  unfold Event.isAddrTx; infer_instance

/-- A transfer abandoned between the absorbed start-sent event and the address byte:
start, start-sent event (absorbed), read of two bytes, bus error, stop. -/
def abandonedTransfer : List Step :=
  [Step.start 0x50, Step.event sbEvent, Step.read 200 2 ReadParameter.READ_STOP,
    Step.error 0x0100, Step.stop]

/-- A state armed for transmission with no byte left, entered with only TXE set. -/
def exhaustedExample : State :=
  { powerUp with
    busyState := BusyState.BUSY
    CR2 := 0x0724
    SR1 := 0x0080
    writePointer := 100 }

/-- A state armed for reception with no byte left. -/
def emptyReadExample : State :=
  { powerUp with
    busyState := BusyState.BUSY
    CR2 := 0x0724
    reading := true }

/-- The relation between the state `s` before and `s2` after a piece of the event
handler, as far as interrupt enabling goes: no interrupt-enable bit is newly set,
BusyState does not become FREE, and the deferred-start flag is kept. -/
def Quieter (hw : Hw) (s s2 : State) : Prop :=
  (s.CR2 &&& hw.itMask = 0 → s2.CR2 &&& hw.itMask = 0) ∧
  (s2.busyState = BusyState.FREE → s.busyState = BusyState.FREE) ∧
  s2.waitForStartConditionAfterWriteFollowedByRestart =
    s.waitForStartConditionAfterWriteFollowedByRestart

/-- Interrupts enabled although BusyState is FREE and a deferred start is pending. -/
def EnabledWhileFreeAndDeferred (hw : Hw) (s : State) : Prop :=
  interruptsEnabled hw s ∧ s.busyState = BusyState.FREE ∧
  s.waitForStartConditionAfterWriteFollowedByRestart = true

/-! ## Bit-level facts -/

theorem andNotBits_and_self (r m : Nat) : andNotBits r m &&& m = 0 := by
  apply Nat.eq_of_testBit_eq
  intro i
  have h : (65536 : Nat) = 2 ^ 16 := by norm_num
  have h2 : (0xFFFFFFFF : Nat) = 2 ^ 32 - 1 := by norm_num
  simp only [andNotBits, h, h2, Nat.testBit_and, Nat.testBit_mod_two_pow, Nat.testBit_xor,
    Nat.testBit_two_pow_sub_one, Nat.zero_testBit]
  by_cases hi : i < 16
  · have : i < 32 := by omega
    simp [hi, this]
  · simp [hi]

theorem andNotBits_testBit (r m i : Nat) (hi : i < 16) (hm : m.testBit i = false) :
    (andNotBits r m).testBit i = r.testBit i := by
  have h : (65536 : Nat) = 2 ^ 16 := by norm_num
  have h2 : (0xFFFFFFFF : Nat) = 2 ^ 32 - 1 := by norm_num
  have : i < 32 := by omega
  unfold andNotBits
  rw [h, h2]
  simp only [Nat.testBit_and, Nat.testBit_mod_two_pow, Nat.testBit_xor,
    Nat.testBit_two_pow_sub_one, hi, hm, this]
  simp

theorem orBits_and_self (r m : Nat) : orBits r m &&& m = m := by
  apply Nat.eq_of_testBit_eq
  intro i
  simp only [orBits, Nat.testBit_and, Nat.testBit_or]
  cases r.testBit i <;> cases m.testBit i <;> rfl

theorem orBits_orBits_and (r m k : Nat) : orBits (orBits r m) k &&& m = m := by
  apply Nat.eq_of_testBit_eq
  intro i
  simp only [orBits, Nat.testBit_and, Nat.testBit_or]
  cases r.testBit i <;> cases m.testBit i <;> cases k.testBit i <;> rfl

theorem and_or_eq_zero (x a b : Nat) :
    x &&& (a ||| b) = 0 ↔ x &&& a = 0 ∧ x &&& b = 0 := by
  rw [Nat.and_or_distrib_left]
  constructor
  · intro h
    constructor
    · apply Nat.eq_of_testBit_eq
      intro i
      have := congrArg (fun n => Nat.testBit n i) h
      simp only [Nat.testBit_or, Nat.zero_testBit, Bool.or_eq_false_iff] at this
      simpa using this.1
    · apply Nat.eq_of_testBit_eq
      intro i
      have := congrArg (fun n => Nat.testBit n i) h
      simp only [Nat.testBit_or, Nat.zero_testBit, Bool.or_eq_false_iff] at this
      simpa using this.2
  · rintro ⟨h1, h2⟩
    rw [h1, h2]; rfl

theorem and_itMask_eq_zero (hw : Hw) (x : Nat) :
    x &&& hw.itMask = 0 ↔
      x &&& hw.I2C_CR2_ITEVTEN = 0 ∧ x &&& hw.I2C_CR2_ITBUFEN = 0 ∧
      x &&& hw.I2C_CR2_ITERREN = 0 := by
  unfold Hw.itMask
  rw [and_or_eq_zero, and_or_eq_zero, and_assoc]

theorem orBits_itMask (hw : Hw) (r : Nat) :
    orBits r hw.itMask &&& hw.I2C_CR2_ITEVTEN = hw.I2C_CR2_ITEVTEN ∧
    orBits r hw.itMask &&& hw.I2C_CR2_ITBUFEN = hw.I2C_CR2_ITBUFEN ∧
    orBits r hw.itMask &&& hw.I2C_CR2_ITERREN = hw.I2C_CR2_ITERREN := by
  refine ⟨?_, ?_, ?_⟩ <;>
  · apply Nat.eq_of_testBit_eq
    intro i
    simp only [orBits, Hw.itMask, Nat.testBit_and, Nat.testBit_or]
    cases r.testBit i <;> cases hw.I2C_CR2_ITEVTEN.testBit i <;>
      cases hw.I2C_CR2_ITBUFEN.testBit i <;> cases hw.I2C_CR2_ITERREN.testBit i <;> rfl

/-! ## Control surface -/

/-- C1: when the stored BusyState is not FREE, `start` returns false and leaves every
driver variable, every register, the memory and the record of accesses unchanged. -/
theorem start_refused_no_effect (hw : Hw) (a : Nat) (s : State)
    (h : s.busyState ≠ BusyState.FREE) : start hw a s = (false, s) := by
  simp [start, h]

theorem start_refused_no_effect_witness :
    (start stm32f10x 0x50 busyExample).1 = false ∧
    (start stm32f10x 0x50 busyExample).2.log = busyExample.log ∧
    (start stm32f10x 0x50 busyExample).2.CR1 = busyExample.CR1 := by
  rw [start_refused_no_effect stm32f10x 0x50 busyExample (by decide)]
  exact ⟨rfl, rfl, rfl⟩

/-- C5: from every state, `stop` leaves BusyState FREE and the three interrupt-enable bits
of CR2 clear; every other bit of the 16-bit CR2, the BusState and the transfer
descriptor (count, cursors, direction, restart flag, address, buffer memory) are unchanged. -/
theorem stop_forces_idle (hw : Hw) (s : State) :
    (stop hw s).busyState = BusyState.FREE ∧
    (stop hw s).CR2 &&& hw.I2C_CR2_ITEVTEN = 0 ∧
    (stop hw s).CR2 &&& hw.I2C_CR2_ITBUFEN = 0 ∧
    (stop hw s).CR2 &&& hw.I2C_CR2_ITERREN = 0 ∧
    (∀ i, i < 16 → hw.itMask.testBit i = false →
      (stop hw s).CR2.testBit i = s.CR2.testBit i) ∧
    (stop hw s).busState = s.busState ∧
    (stop hw s).bytes_left = s.bytes_left ∧
    (stop hw s).readPointer = s.readPointer ∧
    (stop hw s).writePointer = s.writePointer ∧
    (stop hw s).reading = s.reading ∧
    (stop hw s).restartAfterReading = s.restartAfterReading ∧
    (stop hw s).address = s.address ∧
    (stop hw s).mem = s.mem := by
  have hcr2 : (stop hw s).CR2 = andNotBits s.CR2 hw.itMask := by
    simp only [stop, andNotCR2, orCR1]
    split_ifs <;> rfl
  have hz := (and_itMask_eq_zero hw _).1 (andNotBits_and_self s.CR2 hw.itMask)
  refine ⟨rfl, ?_, ?_, ?_, ?_, ?_, ?_, ?_, ?_, ?_, ?_, ?_, ?_⟩
  · rw [hcr2]; exact hz.1
  · rw [hcr2]; exact hz.2.1
  · rw [hcr2]; exact hz.2.2
  · intro i hi hm
    rw [hcr2]; exact andNotBits_testBit _ _ _ hi hm
  all_goals
    simp only [stop, andNotCR2, orCR1]
    split_ifs <;> rfl

theorem stop_forces_idle_witness :
    (stop stm32f10x armedExample).busyState = BusyState.FREE ∧
    (stop stm32f10x armedExample).CR2 = 0x0024 ∧
    (stop stm32f10x armedExample).busState = BusState.BUS_WRITE :=
  ⟨(stop_forces_idle stm32f10x armedExample).1, by decide, by decide⟩

/-- The accesses of one run of the error handler entered with `SR1 = tmp`. -/
theorem error_handler_log (hw : Hw) (s : State) :
    (I2C2_ER_IRQHandler hw s).log =
      s.log ++ ((if s.SR1 &&& hw.I2C_SR1_BERR ≠ 0 then
          [Access.orEq Reg.CR1 hw.I2C_CR1_STOP] else []) ++
        ((if s.SR1 &&& hw.I2C_SR1_AF ≠ 0 then
          [Access.orEq Reg.CR1 hw.I2C_CR1_STOP] else []) ++
        [Access.assign Reg.SR1 0, Access.andNotEq Reg.CR2 hw.itMask])) := by
  simp only [I2C2_ER_IRQHandler, orCR1, andNotCR2, writeSR1]
  split_ifs <;> simp

theorem error_handler_CR1 (hw : Hw) (s : State) :
    (I2C2_ER_IRQHandler hw s).CR1 =
      if s.SR1 &&& hw.I2C_SR1_AF ≠ 0 then
        orBits (if s.SR1 &&& hw.I2C_SR1_BERR ≠ 0 then orBits s.CR1 hw.I2C_CR1_STOP
          else s.CR1) hw.I2C_CR1_STOP
      else if s.SR1 &&& hw.I2C_SR1_BERR ≠ 0 then orBits s.CR1 hw.I2C_CR1_STOP
      else s.CR1 := by
  simp only [I2C2_ER_IRQHandler, orCR1, andNotCR2, writeSR1]
  split_ifs <;> rfl

theorem error_handler_state (hw : Hw) (s : State)
    (h : s.SR1 &&& hw.I2C_SR1_BERR ≠ 0 ∨ s.SR1 &&& hw.I2C_SR1_AF ≠ 0 ∨
      s.SR1 &&& hw.I2C_SR1_ARLO ≠ 0) :
    (I2C2_ER_IRQHandler hw s).busState = BusState.BUS_RESET ∧
    (I2C2_ER_IRQHandler hw s).busyState = BusyState.OCCUPIED := by
  simp only [I2C2_ER_IRQHandler, orCR1, andNotCR2, writeSR1]
  split_ifs <;> first | exact ⟨rfl, rfl⟩ | (exfalso; tauto)

/-- C6: the error handler entered with BERR or AF set in SR1 executes `CR1 |= STOP`,
leaves the STOP bit set in CR1, BusState RESET and BusyState OCCUPIED; entered with
ARLO set and neither BERR nor AF, it leaves RESET and OCCUPIED, does not change CR1
and stores to no register but SR1 and CR2. -/
theorem error_handler_faults (hw : Hw) (s : State) :
    ((s.SR1 &&& hw.I2C_SR1_BERR ≠ 0 ∨ s.SR1 &&& hw.I2C_SR1_AF ≠ 0) →
      (∃ d, (I2C2_ER_IRQHandler hw s).log = s.log ++ d ∧
        Access.orEq Reg.CR1 hw.I2C_CR1_STOP ∈ d) ∧
      (I2C2_ER_IRQHandler hw s).CR1 &&& hw.I2C_CR1_STOP = hw.I2C_CR1_STOP ∧
      (I2C2_ER_IRQHandler hw s).busState = BusState.BUS_RESET ∧
      (I2C2_ER_IRQHandler hw s).busyState = BusyState.OCCUPIED) ∧
    (s.SR1 &&& hw.I2C_SR1_ARLO ≠ 0 → s.SR1 &&& hw.I2C_SR1_BERR = 0 →
      s.SR1 &&& hw.I2C_SR1_AF = 0 →
      (I2C2_ER_IRQHandler hw s).busState = BusState.BUS_RESET ∧
      (I2C2_ER_IRQHandler hw s).busyState = BusyState.OCCUPIED ∧
      (I2C2_ER_IRQHandler hw s).CR1 = s.CR1 ∧
      (I2C2_ER_IRQHandler hw s).log =
        s.log ++ [Access.assign Reg.SR1 0, Access.andNotEq Reg.CR2 hw.itMask]) := by
  constructor
  · intro h
    refine ⟨⟨_, error_handler_log hw s, ?_⟩, ?_, ?_⟩
    · rcases h with h | h <;> simp [h]
    · rw [error_handler_CR1]
      split_ifs with h1 h2 h3
      · exact orBits_and_self _ _
      · exact orBits_and_self _ _
      · exact orBits_and_self _ _
      · exact absurd h (by tauto)
    · exact error_handler_state hw s (by tauto)
  · intro hl hb ha
    refine ⟨(error_handler_state hw s (by tauto)).1,
      (error_handler_state hw s (by tauto)).2, ?_, ?_⟩
    · rw [error_handler_CR1]; simp [hb, ha]
    · rw [error_handler_log]; simp [hb, ha]

theorem error_handler_faults_witness :
    (I2C2_ER_IRQHandler stm32f10x armedExample).CR1 &&& 0x0200 = 0x0200 ∧
    (I2C2_ER_IRQHandler stm32f10x armedExample).busState = BusState.BUS_RESET ∧
    (I2C2_ER_IRQHandler stm32f10x armedExample).busyState = BusyState.OCCUPIED ∧
    (I2C2_ER_IRQHandler stm32f10x armedExample).log =
      [Access.orEq Reg.CR1 0x0200, Access.assign Reg.SR1 0, Access.andNotEq Reg.CR2 0x0700] :=
  have h := (error_handler_faults stm32f10x armedExample).1 (Or.inr (by decide))
  ⟨h.2.1, h.2.2.1, h.2.2.2, by decide⟩

/-- C7: for every state and every value of SR1, the error handler assigns 0 to SR1,
leaves the three interrupt-enable bits of CR2 clear and the deferred-start flag false,
and does not change the transfer descriptor (count, cursors, direction, restart flag,
address, buffer memory). -/
theorem error_handler_cleanup (hw : Hw) (s : State) :
    (I2C2_ER_IRQHandler hw s).SR1 = 0 ∧
    (∃ d, (I2C2_ER_IRQHandler hw s).log = s.log ++ d ∧ Access.assign Reg.SR1 0 ∈ d) ∧
    (I2C2_ER_IRQHandler hw s).CR2 &&& hw.I2C_CR2_ITEVTEN = 0 ∧
    (I2C2_ER_IRQHandler hw s).CR2 &&& hw.I2C_CR2_ITBUFEN = 0 ∧
    (I2C2_ER_IRQHandler hw s).CR2 &&& hw.I2C_CR2_ITERREN = 0 ∧
    (I2C2_ER_IRQHandler hw s).waitForStartConditionAfterWriteFollowedByRestart = false ∧
    (I2C2_ER_IRQHandler hw s).bytes_left = s.bytes_left ∧
    (I2C2_ER_IRQHandler hw s).readPointer = s.readPointer ∧
    (I2C2_ER_IRQHandler hw s).writePointer = s.writePointer ∧
    (I2C2_ER_IRQHandler hw s).reading = s.reading ∧
    (I2C2_ER_IRQHandler hw s).restartAfterReading = s.restartAfterReading ∧
    (I2C2_ER_IRQHandler hw s).address = s.address ∧
    (I2C2_ER_IRQHandler hw s).mem = s.mem := by
  have hcr2 : (I2C2_ER_IRQHandler hw s).CR2 = andNotBits s.CR2 hw.itMask := by
    simp only [I2C2_ER_IRQHandler, orCR1, andNotCR2, writeSR1]
    split_ifs <;> rfl
  have hz := (and_itMask_eq_zero hw _).1 (andNotBits_and_self s.CR2 hw.itMask)
  refine ⟨rfl, ⟨_, error_handler_log hw s, by simp⟩, ?_, ?_, ?_, rfl, ?_, ?_, ?_, ?_, ?_,
    ?_, ?_⟩
  · rw [hcr2]; exact hz.1
  · rw [hcr2]; exact hz.2.1
  · rw [hcr2]; exact hz.2.2
  all_goals
    simp only [I2C2_ER_IRQHandler, orCR1, andNotCR2, writeSR1]
    split_ifs <;> rfl

theorem error_handler_cleanup_witness :
    (I2C2_ER_IRQHandler stm32f10x armedExample).SR1 = 0 ∧
    (I2C2_ER_IRQHandler stm32f10x armedExample).CR2 = 0x0024 ∧
    (I2C2_ER_IRQHandler stm32f10x armedExample).bytes_left = 3 :=
  ⟨(error_handler_cleanup stm32f10x armedExample).1, by decide, by decide⟩

/-- C8: from every state with BusyState FREE, `start a` returns true; afterwards the
address is `a`, BusyState is BUSY, the START bit of CR1 is set, the accesses made are
the store of 0xff to DR (exactly when SB was set in SR1 at the call) followed by
`CR1 |= START`, the deferred-start flag is true exactly when none of ITEVTEN, ITBUFEN,
ITERREN is set in CR2, and BusState, the pending-start flag and the transfer buffer
fields are unchanged. -/
theorem start_accepted (hw : Hw) (a : Nat) (s : State)
    (h : s.busyState = BusyState.FREE) :
    (start hw a s).1 = true ∧
    (start hw a s).2.address = a ∧
    (start hw a s).2.busyState = BusyState.BUSY ∧
    (start hw a s).2.CR1 &&& hw.I2C_CR1_START = hw.I2C_CR1_START ∧
    (start hw a s).2.log =
      s.log ++ ((if s.SR1 &&& hw.I2C_SR1_SB ≠ 0 then [Access.assign Reg.DR 0xff] else []) ++
        [Access.orEq Reg.CR1 hw.I2C_CR1_START]) ∧
    ((start hw a s).2.waitForStartConditionAfterWriteFollowedByRestart = true ↔
      s.CR2 &&& hw.I2C_CR2_ITEVTEN = 0 ∧ s.CR2 &&& hw.I2C_CR2_ITBUFEN = 0 ∧
      s.CR2 &&& hw.I2C_CR2_ITERREN = 0) ∧
    (start hw a s).2.busState = s.busState ∧
    (start hw a s).2.startConditionGeneratedWaitingForAddress =
      s.startConditionGeneratedWaitingForAddress ∧
    (start hw a s).2.bytes_left = s.bytes_left ∧
    (start hw a s).2.readPointer = s.readPointer ∧
    (start hw a s).2.writePointer = s.writePointer ∧
    (start hw a s).2.reading = s.reading ∧
    (start hw a s).2.restartAfterReading = s.restartAfterReading ∧
    (start hw a s).2.mem = s.mem ∧
    (start hw a s).2.stores = s.stores := by
  simp only [start, h, if_true, orCR1, writeDR]
  refine ⟨trivial, ?_, ?_, ?_, ?_, ?_, ?_, ?_, ?_, ?_, ?_, ?_, ?_, ?_, ?_⟩
  · split_ifs <;> rfl
  · split_ifs <;> rfl
  · split_ifs <;> exact orBits_and_self _ _
  · split_ifs <;> simp
  · rw [← and_itMask_eq_zero]
    split_ifs <;> simp
  all_goals split_ifs <;> rfl

theorem start_accepted_witness :
    (start stm32f10x 0x50 latchedExample).2.log =
      [Access.assign Reg.DR 0xff, Access.orEq Reg.CR1 0x0100] ∧
    (start stm32f10x 0x50 latchedExample).2.address = 0x50 := by
  have h := start_accepted stm32f10x 0x50 latchedExample (by decide)
  exact ⟨h.2.2.2.2.1, h.2.1⟩

/-- C9 (as amended): from every state with BusyState FREE in which the start-sent flag SB
is clear in SR1, `restart a` produces the same state and the same register accesses as
`start a`; whatever SB is, the two agree on address, BusyState, CR1, CR2 and
the deferred-start flag, and `restart` makes the single access `CR1 |= START`. -/
theorem restart_eq_start_unless_latched (hw : Hw) (a : Nat) (s : State)
    (h : s.busyState = BusyState.FREE) :
    (s.SR1 &&& hw.I2C_SR1_SB = 0 → restart hw a s = (start hw a s).2) ∧
    (restart hw a s).address = (start hw a s).2.address ∧
    (restart hw a s).busyState = (start hw a s).2.busyState ∧
    (restart hw a s).CR1 = (start hw a s).2.CR1 ∧
    (restart hw a s).CR2 = (start hw a s).2.CR2 ∧
    (restart hw a s).waitForStartConditionAfterWriteFollowedByRestart =
      (start hw a s).2.waitForStartConditionAfterWriteFollowedByRestart ∧
    (restart hw a s).log = s.log ++ [Access.orEq Reg.CR1 hw.I2C_CR1_START] := by
  simp only [start, restart, h, if_true, orCR1, writeDR]
  refine ⟨?_, ?_, ?_, ?_, ?_, ?_, trivial⟩
  · intro hsb
    simp [hsb]
  all_goals split_ifs <;> rfl

theorem restart_eq_start_unless_latched_witness :
    restart stm32f10x 0x50 powerUp = (start stm32f10x 0x50 powerUp).2 :=
  (restart_eq_start_unless_latched stm32f10x 0x50 powerUp (by decide)).1 (by decide)

/-- C9 fails as stated: in a FREE state with SB latched in SR1, `start` stores 0xff to
the data register before requesting the start condition and `restart` does not. -/
theorem restart_differs_from_start_when_latched :
    latchedExample.busyState = BusyState.FREE ∧
    (start stm32f10x 0x50 latchedExample).1 = true ∧
    (start stm32f10x 0x50 latchedExample).2.log =
      [Access.assign Reg.DR 0xff, Access.orEq Reg.CR1 0x0100] ∧
    (restart stm32f10x 0x50 latchedExample).log = [Access.orEq Reg.CR1 0x0100] ∧
    (start stm32f10x 0x50 latchedExample).2.DR = 0xff ∧
    (restart stm32f10x 0x50 latchedExample).DR = 0 ∧
    restart stm32f10x 0x50 latchedExample ≠ (start stm32f10x 0x50 latchedExample).2 := by
  refine ⟨rfl, by decide, by decide, by decide, by decide, by decide, ?_⟩
  intro heq
  have h := congrArg State.DR heq
  revert h
  decide

/-- C10: `getBusyState` returns BUSY when the STOP bit is set in CR1 and the stored
BusyState otherwise; when the deferred-start flag is set and the START bit of CR1 is
clear it executes `CR2 |= ITEVTEN | ITBUFEN | ITERREN` (leaving the three bits set),
clears the flag and changes nothing else; in every other case the state is unchanged;
the stored BusyState, the BusState and the transfer descriptor never change. -/
theorem getBusyState_spec (hw : Hw) (s : State) :
    (getBusyState hw s).1 =
      (if s.CR1 &&& hw.I2C_CR1_STOP ≠ 0 then BusyState.BUSY else s.busyState) ∧
    ((s.waitForStartConditionAfterWriteFollowedByRestart = true ∧
        s.CR1 &&& hw.I2C_CR1_START = 0) →
      (getBusyState hw s).2 =
        { s with
          waitForStartConditionAfterWriteFollowedByRestart := false
          CR2 := orBits s.CR2 hw.itMask
          log := s.log ++ [Access.orEq Reg.CR2 hw.itMask] } ∧
      (getBusyState hw s).2.CR2 &&& hw.I2C_CR2_ITEVTEN = hw.I2C_CR2_ITEVTEN ∧
      (getBusyState hw s).2.CR2 &&& hw.I2C_CR2_ITBUFEN = hw.I2C_CR2_ITBUFEN ∧
      (getBusyState hw s).2.CR2 &&& hw.I2C_CR2_ITERREN = hw.I2C_CR2_ITERREN) ∧
    (¬ (s.waitForStartConditionAfterWriteFollowedByRestart = true ∧
        s.CR1 &&& hw.I2C_CR1_START = 0) → (getBusyState hw s).2 = s) ∧
    (getBusyState hw s).2.busyState = s.busyState ∧
    (getBusyState hw s).2.busState = s.busState ∧
    (getBusyState hw s).2.bytes_left = s.bytes_left ∧
    (getBusyState hw s).2.readPointer = s.readPointer ∧
    (getBusyState hw s).2.writePointer = s.writePointer ∧
    (getBusyState hw s).2.reading = s.reading ∧
    (getBusyState hw s).2.restartAfterReading = s.restartAfterReading ∧
    (getBusyState hw s).2.address = s.address ∧
    (getBusyState hw s).2.mem = s.mem := by
  have h2 : (getBusyState hw s).2 =
      if s.waitForStartConditionAfterWriteFollowedByRestart = true ∧
          s.CR1 &&& hw.I2C_CR1_START = 0 then
        orCR2 hw.itMask { s with waitForStartConditionAfterWriteFollowedByRestart := false }
      else s := by
    simp only [getBusyState]
    split_ifs <;> rfl
  refine ⟨?_, ?_, ?_, ?_, ?_, ?_, ?_, ?_, ?_, ?_, ?_, ?_⟩
  · simp only [getBusyState]
    split_ifs <;> rfl
  · intro hc
    rw [h2, if_pos hc]
    exact ⟨rfl, orBits_itMask hw s.CR2⟩
  · intro hc
    rw [h2, if_neg hc]
  all_goals
    rw [h2]
    split_ifs <;> rfl

theorem getBusyState_spec_witness :
    (getBusyState stm32f10x armedExample).1 = BusyState.BUSY ∧
    (getBusyState stm32f10x armedExample).2.CR2 &&& 0x0200 = 0x0200 ∧
    (getBusyState stm32f10x armedExample).2.waitForStartConditionAfterWriteFollowedByRestart =
      false ∧
    (getBusyState stm32f10x powerUp).1 = BusyState.FREE ∧
    (getBusyState stm32f10x powerUp).2.log = [] :=
  have h := getBusyState_spec stm32f10x armedExample
  ⟨by rw [h.1]; decide, ((h.2.1 (by decide)).2).1, by decide, by decide, by decide⟩

/-! ## Event sequences -/

theorem drWrites_append (l₁ l₂ : List Access) :
    drWrites (l₁ ++ l₂) = drWrites l₁ ++ drWrites l₂ := by
  induction l₁ with
  | nil => rfl
  | cons a l ih =>
    cases a with
    | assign r v => cases r <;> simp [drWrites, ih]
    | orEq r m => simp [drWrites, ih]
    | andNotEq r m => simp [drWrites, ih]

theorem raiseAll_cons (hw : Hw) (s : State) (e : Event) (es : List Event) :
    raiseAll hw s (e :: es) = raiseAll hw (raise hw s e) es := rfl

theorem raiseAll_append (hw : Hw) (s : State) (es₁ es₂ : List Event) :
    raiseAll hw s (es₁ ++ es₂) = raiseAll hw (raiseAll hw s es₁) es₂ := by
  simp [raiseAll, List.foldl_append]

theorem dec_bytes_left (n : Nat) (h1 : 1 ≤ n) (h2 : n ≤ 255) : (n + 255) % 256 = n - 1 := by
  omega

/-- A data-register-empty event without byte-transfer-finished runs `sendByte` only. -/
theorem raise_isTxe (hw : Hw) (s : State) (e : Event) (he : e.isTxe hw) :
    raise hw s e = sendByte hw { s with SR1 := e.sr1, SR2 := e.sr2, DR := e.dr } := by
  obtain ⟨h1, h2, h3, h4, h5⟩ := he
  simp [raise, I2C2_EV_IRQHandler, evTxe, h1, h2, h3, h4, h5]

/-- The effect of one data-register-empty event while bytes remain. -/
theorem raise_isTxe_fields (hw : Hw) (s : State) (e : Event) (he : e.isTxe hw)
    (h1 : 1 ≤ s.bytes_left) (h2 : s.bytes_left ≤ 255) :
    (raise hw s e).bytes_left = s.bytes_left - 1 ∧
    (raise hw s e).writePointer = s.writePointer + 1 ∧
    (raise hw s e).mem = s.mem ∧
    (raise hw s e).busState = s.busState ∧
    (raise hw s e).busyState = s.busyState ∧
    (raise hw s e).stores = s.stores ∧
    (raise hw s e).log =
      s.log ++ (Access.assign Reg.DR (s.mem s.writePointer % 256) ::
        (if s.bytes_left = 1 then [Access.andNotEq Reg.CR2 hw.I2C_CR2_ITBUFEN] else [])) := by
  rw [raise_isTxe hw s e he]
  have hd := dec_bytes_left s.bytes_left h1 h2
  have hz : s.bytes_left - 1 = 0 ↔ s.bytes_left = 1 := by omega
  simp only [sendByte, writeDR, andNotCR2, hd, hz]
  split_ifs <;> simp

/-- After `n` data-register-empty events on a transfer with `n` bytes left, the bytes at
the write cursor have been stored to DR in order and no byte is left. -/
theorem raiseAll_isTxe (hw : Hw) (evs : List Event) (s : State)
    (hev : ∀ e ∈ evs, e.isTxe hw) (hn : s.bytes_left = evs.length)
    (h255 : evs.length ≤ 255) :
    (raiseAll hw s evs).bytes_left = 0 ∧
    (raiseAll hw s evs).writePointer = s.writePointer + evs.length ∧
    (raiseAll hw s evs).mem = s.mem ∧
    (raiseAll hw s evs).busState = s.busState ∧
    (raiseAll hw s evs).busyState = s.busyState ∧
    (raiseAll hw s evs).stores = s.stores ∧
    ∃ d, (raiseAll hw s evs).log = s.log ++ d ∧
      drWrites d = (List.range' s.writePointer evs.length).map (fun p => s.mem p % 256) := by
  induction evs generalizing s with
  | nil => exact ⟨hn, rfl, rfl, rfl, rfl, rfl, [], by simp [raiseAll], rfl⟩
  | cons e rest ih =>
    have he : e.isTxe hw := hev e (List.mem_cons_self _ _)
    have hlen : (e :: rest).length = rest.length + 1 := rfl
    obtain ⟨f1, f2, f3, f4, f5, f6, f7⟩ :=
      raise_isTxe_fields hw s e he (by omega) (by omega)
    obtain ⟨g1, g2, g3, g4, g5, g6, d, g7, g8⟩ :=
      ih (raise hw s e) (fun x hx => hev x (List.mem_cons_of_mem _ hx))
        (by rw [f1, hn, hlen]; omega) (by omega)
    rw [raiseAll_cons]
    refine ⟨g1, ?_, ?_, ?_, ?_, ?_,
      (Access.assign Reg.DR (s.mem s.writePointer % 256) ::
        (if s.bytes_left = 1 then [Access.andNotEq Reg.CR2 hw.I2C_CR2_ITBUFEN] else [])) ++ d,
      ?_, ?_⟩
    · rw [g2, f2, hlen]; omega
    · rw [g3, f3]
    · rw [g4, f4]
    · rw [g5, f5]
    · rw [g6, f6]
    · rw [g7, f7, List.append_assoc]
    · rw [drWrites_append, g8, f2, f3, hlen, List.range'_succ, List.map_cons]
      have : drWrites (Access.assign Reg.DR (s.mem s.writePointer % 256) ::
          (if s.bytes_left = 1 then [Access.andNotEq Reg.CR2 hw.I2C_CR2_ITBUFEN] else [])) =
          [s.mem s.writePointer % 256] := by
        split_ifs <;> rfl
      rw [this]; rfl

/-- A data-register-empty event with byte-transfer-finished and no byte left ends the
transmission. -/
theorem raise_isTxeBtf_done (hw : Hw) (s : State) (e : Event) (he : e.isTxeBtf hw)
    (h0 : s.bytes_left = 0) :
    (raise hw s e).bytes_left = 0 ∧
    (raise hw s e).busState = BusState.BUS_WRITE ∧
    (raise hw s e).busyState = BusyState.OCCUPIED ∧
    (raise hw s e).CR2 = andNotBits s.CR2 hw.itMask ∧
    (raise hw s e).log = s.log ++ [Access.andNotEq Reg.CR2 hw.itMask] ∧
    (raise hw s e).writePointer = s.writePointer ∧
    (raise hw s e).mem = s.mem := by
  obtain ⟨h1, h2, h3, h4, h5⟩ := he
  simp [raise, I2C2_EV_IRQHandler, evTxe, andNotCR2, h0, h1, h2, h3, h4, h5]

theorem write_fields (hw : Hw) (data size : Nat) (s : State) :
    (write hw data size s).bytes_left = size % 256 ∧
    (write hw data size s).writePointer = data ∧
    (write hw data size s).reading = false ∧
    (write hw data size s).busyState = BusyState.BUSY ∧
    (write hw data size s).CR2 = orBits s.CR2 hw.itMask ∧
    (write hw data size s).mem = s.mem ∧
    (write hw data size s).log = s.log ++ [Access.orEq Reg.CR2 hw.itMask] :=
  ⟨rfl, rfl, rfl, rfl, rfl, rfl, rfl⟩

/-- C2: for a buffer `b` of N bytes, 1 ≤ N ≤ 255, held at `data`: after `write data N`, N
data-register-empty events (TXE without BTF) and then one with byte-transfer-finished
store exactly the bytes of `b`, in order, to the data register and end with BusState
WRITE, BusyState OCCUPIED, no byte left and the three interrupt-enable bits clear. -/
theorem write_transfer_completes (hw : Hw) (s : State) (data : Nat) (b : List Nat)
    (evs : List Event) (last : Event)
    (hN1 : 1 ≤ b.length) (hN2 : b.length ≤ 255) (hb : ∀ x ∈ b, x < 256)
    (hmem : ∀ i (h : i < b.length), s.mem (data + i) = b[i])
    (hlen : evs.length = b.length) (hev : ∀ e ∈ evs, e.isTxe hw)
    (hlast : last.isTxeBtf hw) :
    (∃ d, (raise hw (raiseAll hw (write hw data b.length s) evs) last).log = s.log ++ d ∧
      drWrites d = b) ∧
    (raise hw (raiseAll hw (write hw data b.length s) evs) last).busState =
      BusState.BUS_WRITE ∧
    (raise hw (raiseAll hw (write hw data b.length s) evs) last).busyState =
      BusyState.OCCUPIED ∧
    (raise hw (raiseAll hw (write hw data b.length s) evs) last).bytes_left = 0 ∧
    (raise hw (raiseAll hw (write hw data b.length s) evs) last).CR2 &&&
      hw.I2C_CR2_ITEVTEN = 0 ∧
    (raise hw (raiseAll hw (write hw data b.length s) evs) last).CR2 &&&
      hw.I2C_CR2_ITBUFEN = 0 ∧
    (raise hw (raiseAll hw (write hw data b.length s) evs) last).CR2 &&&
      hw.I2C_CR2_ITERREN = 0 := by
  obtain ⟨w1, w2, -, -, -, w6, w7⟩ := write_fields hw data b.length s
  have hmod : b.length % 256 = b.length := Nat.mod_eq_of_lt (by omega)
  obtain ⟨g1, -, -, -, -, -, d, g7, g8⟩ :=
    raiseAll_isTxe hw evs (write hw data b.length s) hev (by rw [w1, hmod, hlen])
      (by omega)
  obtain ⟨f1, f2, f3, f4, f5, -, -⟩ :=
    raise_isTxeBtf_done hw (raiseAll hw (write hw data b.length s) evs) last hlast g1
  have hz := (and_itMask_eq_zero hw _).1
    (andNotBits_and_self (raiseAll hw (write hw data b.length s) evs).CR2 hw.itMask)
  refine ⟨⟨[Access.orEq Reg.CR2 hw.itMask] ++ d ++ [Access.andNotEq Reg.CR2 hw.itMask],
    ?_, ?_⟩, f2, f3, f1, ?_, ?_, ?_⟩
  · rw [f5, g7, w7]; simp
  · rw [drWrites_append, drWrites_append, g8, w2, w6, hlen]
    simp only [drWrites, List.nil_append, List.append_nil]
    apply List.ext_getElem
    · simp
    · intro i h1 h2
      simp only [List.getElem_map, List.getElem_range', Nat.one_mul]
      rw [hmem i h2]
      exact Nat.mod_eq_of_lt (hb _ (List.getElem_mem _))
  · rw [f4]; exact hz.1
  · rw [f4]; exact hz.2.1
  · rw [f4]; exact hz.2.2

theorem write_transfer_completes_witness :
    ((∃ d, (raise stm32f10x (raiseAll stm32f10x (write stm32f10x 100 2 bufferExample)
        [txeEvent, txeEvent]) txeBtfEvent).log = bufferExample.log ++ d ∧
      drWrites d = [0x01, 0x02]) ∧
    (raise stm32f10x (raiseAll stm32f10x (write stm32f10x 100 2 bufferExample)
        [txeEvent, txeEvent]) txeBtfEvent).busState = BusState.BUS_WRITE) ∧
    (raiseAll stm32f10x
      (write stm32f10x 100 2 (raise stm32f10x (start stm32f10x 0x50 bufferExample).2 sbEvent))
      [sbEvent, addrTxEvent, txeEvent, txeEvent, txeBtfEvent]).log =
      [Access.orEq Reg.CR1 0x0100, Access.andNotEq Reg.CR2 0x0700,
        Access.orEq Reg.CR2 0x0700, Access.assign Reg.DR 0x50, Access.assign Reg.DR 0x01,
        Access.assign Reg.DR 0x02, Access.andNotEq Reg.CR2 0x0400,
        Access.andNotEq Reg.CR2 0x0700] ∧
    (raiseAll stm32f10x
      (write stm32f10x 100 2 (raise stm32f10x (start stm32f10x 0x50 bufferExample).2 sbEvent))
      [sbEvent, addrTxEvent, txeEvent, txeEvent, txeBtfEvent]).busState =
      BusState.BUS_WRITE ∧
    (raiseAll stm32f10x
      (write stm32f10x 100 2 (raise stm32f10x (start stm32f10x 0x50 bufferExample).2 sbEvent))
      [sbEvent, addrTxEvent, txeEvent, txeEvent, txeBtfEvent]).busyState =
      BusyState.OCCUPIED ∧
    (raiseAll stm32f10x
      (write stm32f10x 100 2 (raise stm32f10x (start stm32f10x 0x50 bufferExample).2 sbEvent))
      [sbEvent, addrTxEvent, txeEvent, txeEvent, txeBtfEvent]).CR2 = 36 :=
  have h := write_transfer_completes stm32f10x bufferExample 100 [0x01, 0x02]
    [txeEvent, txeEvent] txeBtfEvent (by decide) (by decide) (by decide) (by decide)
    (by decide) (by decide) (by decide)
  ⟨⟨h.1, h.2.1⟩, by decide, by decide, by decide, by decide⟩

theorem and_ff_of_lt (x : Nat) (h : x < 256) : x &&& 0xff = x := by
  have h1 := Nat.and_pow_two_sub_one_eq_mod x 8
  have h2 : (2 : Nat) ^ 8 - 1 = 0xff := by norm_num
  rw [h2] at h1
  rw [h1]
  exact Nat.mod_eq_of_lt (by norm_num; exact h)

theorem read_fields (hw : Hw) (data size : Nat) (param : ReadParameter) (s : State) :
    (read hw data size param s).bytes_left = size % 256 ∧
    (read hw data size param s).readPointer = data ∧
    (read hw data size param s).reading = true ∧
    (read hw data size param s).restartAfterReading =
      decide (param = ReadParameter.READ_RESTART) ∧
    (read hw data size param s).busyState = BusyState.BUSY ∧
    (read hw data size param s).CR2 = orBits s.CR2 hw.itMask ∧
    (read hw data size param s).mem = s.mem ∧
    (read hw data size param s).stores = s.stores ∧
    (read hw data size param s).log = s.log ++ [Access.orEq Reg.CR2 hw.itMask] :=
  ⟨rfl, rfl, rfl, rfl, rfl, rfl, rfl, rfl, rfl⟩

/-- The effect of one address-acknowledged event in receive direction. -/
theorem raise_isAddrRx_fields (hw : Hw) (s : State) (e : Event) (he : e.isAddrRx hw) :
    (raise hw s e).bytes_left = s.bytes_left ∧
    (raise hw s e).restartAfterReading = s.restartAfterReading ∧
    (raise hw s e).readPointer = s.readPointer ∧
    (raise hw s e).stores = s.stores ∧
    (raise hw s e).mem = s.mem ∧
    (raise hw s e).busState = s.busState ∧
    (raise hw s e).busyState = s.busyState ∧
    (raise hw s e).log = s.log ++
      (if s.bytes_left ≤ 1 then
        [Access.andNotEq Reg.CR1 hw.I2C_CR1_ACK,
          Access.orEq Reg.CR1 (if s.restartAfterReading then hw.I2C_CR1_START
            else hw.I2C_CR1_STOP)]
      else [Access.orEq Reg.CR1 hw.I2C_CR1_ACK]) ∧
    (raise hw s e).CR1 =
      (if s.bytes_left ≤ 1 then
        orBits (andNotBits s.CR1 hw.I2C_CR1_ACK)
          (if s.restartAfterReading then hw.I2C_CR1_START else hw.I2C_CR1_STOP)
      else orBits s.CR1 hw.I2C_CR1_ACK) := by
  obtain ⟨h1, h2, h3, h4, h5⟩ := he
  simp only [raise, I2C2_EV_IRQHandler, evAddr, nackAndFinish, andNotCR1, orCR1,
    h1, h2, h3, h4, h5, ne_eq, not_true_eq_false, not_false_eq_true, if_true, if_false]
  split_ifs <;> simp

/-- The effect of one data-received event while bytes remain. -/
theorem raise_isRxne_fields (hw : Hw) (s : State) (e : Event) (he : e.isRxne hw)
    (h1 : 1 ≤ s.bytes_left) (h2 : s.bytes_left ≤ 255) :
    (raise hw s e).bytes_left = s.bytes_left - 1 ∧
    (raise hw s e).restartAfterReading = s.restartAfterReading ∧
    (raise hw s e).readPointer = s.readPointer + 1 ∧
    (raise hw s e).stores = s.stores ++ [(s.readPointer, e.dr)] ∧
    (raise hw s e).mem = Function.update s.mem s.readPointer e.dr ∧
    (raise hw s e).busState =
      (if s.bytes_left = 1 then
        (if s.restartAfterReading then BusState.BUS_HOLD else BusState.BUS_STOPPED)
      else s.busState) ∧
    (raise hw s e).busyState =
      (if s.bytes_left = 1 ∧ s.restartAfterReading = false then BusyState.OCCUPIED
      else s.busyState) ∧
    (raise hw s e).log = s.log ++
      (if s.bytes_left = 2 then
        [Access.andNotEq Reg.CR1 hw.I2C_CR1_ACK,
          Access.orEq Reg.CR1 (if s.restartAfterReading then hw.I2C_CR1_START
            else hw.I2C_CR1_STOP)]
      else []) ∧
    (raise hw s e).CR1 =
      (if s.bytes_left = 2 then
        orBits (andNotBits s.CR1 hw.I2C_CR1_ACK)
          (if s.restartAfterReading then hw.I2C_CR1_START else hw.I2C_CR1_STOP)
      else s.CR1) := by
  obtain ⟨e1, e2, e3, e4, e5⟩ := he
  have hd := dec_bytes_left s.bytes_left h1 h2
  have hz : s.bytes_left - 1 = 0 ↔ s.bytes_left = 1 := by omega
  have ho : s.bytes_left - 1 = 1 ↔ s.bytes_left = 2 := by omega
  have hff := and_ff_of_lt e.dr e5
  simp only [raise, I2C2_EV_IRQHandler, evRxne, nackAndFinish, andNotCR1, orCR1,
    e1, e2, e3, e4, hd, hz, ho, hff, ne_eq, not_true_eq_false, not_false_eq_true,
    if_true, if_false]
  by_cases c2 : s.bytes_left = 2
  · have c1 : ¬ s.bytes_left = 1 := by omega
    simp only [if_pos c2, if_neg c1, false_and, if_false]
    cases s.restartAfterReading <;> simp [c1]
  · by_cases c1 : s.bytes_left = 1
    · simp only [if_neg c2, if_pos c1, true_and]
      cases s.restartAfterReading <;> simp [c1]
    · simp only [if_neg c2, if_neg c1, false_and, if_false]
      simp [c1]

/-- After `n` data-received events on a read of `n` bytes without restart, the bytes
have been stored at the read cursor in arrival order, one store each, and the transfer
is finished. -/
theorem raiseAll_isRxne (hw : Hw) (evs : List Event) (s : State)
    (hev : ∀ e ∈ evs, e.isRxne hw) (hn : s.bytes_left = evs.length)
    (h255 : evs.length ≤ 255) (hr : s.restartAfterReading = false) :
    (raiseAll hw s evs).bytes_left = 0 ∧
    (raiseAll hw s evs).readPointer = s.readPointer + evs.length ∧
    (raiseAll hw s evs).stores =
      s.stores ++ (List.range' s.readPointer evs.length).zip (evs.map Event.dr) ∧
    (∀ a, a < s.readPointer → (raiseAll hw s evs).mem a = s.mem a) ∧
    (∀ i (h : i < evs.length), (raiseAll hw s evs).mem (s.readPointer + i) = evs[i].dr) ∧
    (evs ≠ [] → (raiseAll hw s evs).busState = BusState.BUS_STOPPED ∧
      (raiseAll hw s evs).busyState = BusyState.OCCUPIED) := by
  induction evs generalizing s with
  | nil =>
    refine ⟨hn, rfl, by simp [raiseAll], fun _ _ => rfl, ?_, fun h => absurd rfl h⟩
    intro i h
    exact absurd h (Nat.not_lt_zero _)
  | cons e rest ih =>
    have he : e.isRxne hw := hev e (List.mem_cons_self _ _)
    have hlen : (e :: rest).length = rest.length + 1 := rfl
    obtain ⟨f1, f2, f3, f4, f5, f6, f7, -, -⟩ :=
      raise_isRxne_fields hw s e he (by omega) (by omega)
    obtain ⟨g1, g2, g3, g4, g5, g6⟩ :=
      ih (raise hw s e) (fun x hx => hev x (List.mem_cons_of_mem _ hx))
        (by rw [f1, hn, hlen]; omega) (by omega) (by rw [f2, hr])
    rw [raiseAll_cons]
    refine ⟨g1, ?_, ?_, ?_, ?_, ?_⟩
    · rw [g2, f3, hlen]; omega
    · rw [g3, f4, f3, hlen, List.range'_succ, List.map_cons, List.zip_cons_cons,
        List.append_assoc]
      rfl
    · intro a ha
      rw [g4 a (by rw [f3]; omega), f5, Function.update_noteq (by omega)]
    · intro i h
      cases i with
      | zero =>
        rw [Nat.add_zero, g4 _ (by rw [f3]; omega), f5, Function.update_same]
        rfl
      | succ j =>
        have hj : j < rest.length := by rw [hlen] at h; omega
        have := g5 j hj
        rw [f3] at this
        rw [show s.readPointer + (j + 1) = s.readPointer + 1 + j by omega, this]
        rfl
    · intro _
      cases rest with
      | nil =>
        have hb1 : s.bytes_left = 1 := by rw [hn]; rfl
        show (raise hw s e).busState = BusState.BUS_STOPPED ∧
          (raise hw s e).busyState = BusyState.OCCUPIED
        rw [f6, f7, hr]
        simp [hb1]
      | cons e2 rest2 => exact g6 (List.cons_ne_nil _ _)

/-- C3: for received bytes r_1..r_N, 1 ≤ N ≤ 255: after `read buf N` without restart, an
address-acknowledged event in receive direction and N data-received events delivering
r_1..r_N make exactly the N stores `buf[i] = r_i`, in arrival order, advance the read
cursor to `buf + N` and end with no byte left, BusState STOPPED and BusyState OCCUPIED. -/
theorem read_transfer_completes (hw : Hw) (s : State) (buf : Nat) (addr : Event)
    (rx : List Event) (hN1 : 1 ≤ rx.length) (hN2 : rx.length ≤ 255)
    (haddr : addr.isAddrRx hw) (hrx : ∀ e ∈ rx, e.isRxne hw) :
    (raiseAll hw (read hw buf rx.length ReadParameter.READ_STOP s) (addr :: rx)).stores =
      s.stores ++ (List.range' buf rx.length).zip (rx.map Event.dr) ∧
    (∀ i (h : i < rx.length),
      (raiseAll hw (read hw buf rx.length ReadParameter.READ_STOP s) (addr :: rx)).mem
        (buf + i) = rx[i].dr) ∧
    (raiseAll hw (read hw buf rx.length ReadParameter.READ_STOP s)
      (addr :: rx)).readPointer = buf + rx.length ∧
    (raiseAll hw (read hw buf rx.length ReadParameter.READ_STOP s)
      (addr :: rx)).bytes_left = 0 ∧
    (raiseAll hw (read hw buf rx.length ReadParameter.READ_STOP s)
      (addr :: rx)).busState = BusState.BUS_STOPPED ∧
    (raiseAll hw (read hw buf rx.length ReadParameter.READ_STOP s)
      (addr :: rx)).busyState = BusyState.OCCUPIED := by
  obtain ⟨r1, r2, -, r4, -, -, -, r8, -⟩ :=
    read_fields hw buf rx.length ReadParameter.READ_STOP s
  have hmod : rx.length % 256 = rx.length := Nat.mod_eq_of_lt (by omega)
  obtain ⟨a1, a2, a3, a4, -, -, -, -, -⟩ :=
    raise_isAddrRx_fields hw (read hw buf rx.length ReadParameter.READ_STOP s) addr haddr
  obtain ⟨g1, g2, g3, -, g5, g6⟩ :=
    raiseAll_isRxne hw rx (raise hw (read hw buf rx.length ReadParameter.READ_STOP s) addr)
      hrx (by rw [a1, r1, hmod]) hN2 (by rw [a2, r4]; rfl)
  have hne : rx ≠ [] := by
    intro h
    rw [h] at hN1
    exact absurd hN1 (by decide)
  rw [a3, r2] at g2 g3 g5
  rw [a4, r8] at g3
  rw [raiseAll_cons]
  exact ⟨g3, g5, g2, g1, (g6 hne).1, (g6 hne).2⟩

theorem read_transfer_completes_witness :
    (raiseAll stm32f10x (read stm32f10x 200 3 ReadParameter.READ_STOP powerUp)
      [addrRxEvent, rxneEvent 0xA1, rxneEvent 0xB2, rxneEvent 0xC3]).stores =
      [(200, 0xA1), (201, 0xB2), (202, 0xC3)] ∧
    (raiseAll stm32f10x (read stm32f10x 200 3 ReadParameter.READ_STOP powerUp)
      [addrRxEvent, rxneEvent 0xA1, rxneEvent 0xB2, rxneEvent 0xC3]).busState =
      BusState.BUS_STOPPED :=
  have h := read_transfer_completes stm32f10x powerUp 200 addrRxEvent
    [rxneEvent 0xA1, rxneEvent 0xB2, rxneEvent 0xC3] (by decide) (by decide) (by decide)
    (by decide)
  ⟨h.1, h.2.2.2.2.1⟩

theorem orBits_andNotBits_and (r a k : Nat) (h : a &&& k = 0) :
    orBits (andNotBits r a) k &&& a = 0 := by
  unfold orBits
  rw [Nat.and_comm, Nat.and_or_distrib_left, h, Nat.and_comm, andNotBits_and_self]
  rfl

theorem invocationLog_eq (hw : Hw) (s : State) (e : Event) (d : List Access)
    (h : (raise hw s e).log = s.log ++ d) : invocationLog hw s e = d := by
  unfold invocationLog
  rw [h, List.drop_left]

/-- The state after a proper prefix of the data-received events of a read. -/
theorem raiseAll_isRxne_prefix (hw : Hw) (pre : List Event) (s : State)
    (hev : ∀ e ∈ pre, e.isRxne hw) (hlt : pre.length < s.bytes_left)
    (h255 : s.bytes_left ≤ 255) :
    (raiseAll hw s pre).bytes_left = s.bytes_left - pre.length ∧
    (raiseAll hw s pre).restartAfterReading = s.restartAfterReading ∧
    (raiseAll hw s pre).stores.length = s.stores.length + pre.length := by
  induction pre generalizing s with
  | nil => exact ⟨rfl, rfl, rfl⟩
  | cons e rest ih =>
    have he : e.isRxne hw := hev e (List.mem_cons_self _ _)
    have hlen : (e :: rest).length = rest.length + 1 := rfl
    rw [hlen] at hlt
    obtain ⟨f1, f2, -, f4, -, -, -, -, -⟩ :=
      raise_isRxne_fields hw s e he (by omega) (by omega)
    obtain ⟨g1, g2, g3⟩ :=
      ih (raise hw s e) (fun x hx => hev x (List.mem_cons_of_mem _ hx))
        (by rw [f1]; omega) (by rw [f1]; omega)
    rw [raiseAll_cons, hlen]
    refine ⟨?_, ?_, ?_⟩
    · rw [g1, f1]; omega
    · rw [g2, f2]
    · rw [g3, f4, List.length_append, List.length_singleton]; omega

/-- C4: in a read of N bytes without restart, 1 ≤ N ≤ 255, take any invocation of the
handler in the sequence (address-acknowledged event, then N data-received events), `pre`
being the events handled before it. Its register accesses are `CR1 &= ~ACK; CR1 |= STOP`
exactly when it is invocation number N-1 (counting the address event as 0), where the
count of bytes left is 1 for the first time and only N-1 bytes have been stored; the
address event of a longer read only executes `CR1 |= ACK`, and every other invocation
makes no register access. -/
theorem read_nack_exactly_once (hw : Hw) (s : State) (buf : Nat) (addr : Event)
    (rx : List Event) (hN1 : 1 ≤ rx.length) (hN2 : rx.length ≤ 255)
    (haddr : addr.isAddrRx hw) (hrx : ∀ e ∈ rx, e.isRxne hw)
    (pre post : List Event) (e : Event) (hsplit : addr :: rx = pre ++ e :: post) :
    invocationLog hw (raiseAll hw (read hw buf rx.length ReadParameter.READ_STOP s) pre) e =
      (if pre.length + 1 = rx.length then
        [Access.andNotEq Reg.CR1 hw.I2C_CR1_ACK, Access.orEq Reg.CR1 hw.I2C_CR1_STOP]
      else if pre.length = 0 then [Access.orEq Reg.CR1 hw.I2C_CR1_ACK] else []) ∧
    (raise hw (raiseAll hw (read hw buf rx.length ReadParameter.READ_STOP s) pre)
      e).bytes_left = rx.length - pre.length ∧
    (raise hw (raiseAll hw (read hw buf rx.length ReadParameter.READ_STOP s) pre)
      e).stores.length = s.stores.length + pre.length ∧
    (pre.length + 1 = rx.length →
      (raise hw (raiseAll hw (read hw buf rx.length ReadParameter.READ_STOP s) pre)
        e).CR1 &&& hw.I2C_CR1_STOP = hw.I2C_CR1_STOP ∧
      (hw.I2C_CR1_ACK &&& hw.I2C_CR1_STOP = 0 →
        (raise hw (raiseAll hw (read hw buf rx.length ReadParameter.READ_STOP s) pre)
          e).CR1 &&& hw.I2C_CR1_ACK = 0)) ∧
    (pre.length = 0 → 1 < rx.length →
      (raise hw (raiseAll hw (read hw buf rx.length ReadParameter.READ_STOP s) pre)
        e).CR1 &&& hw.I2C_CR1_ACK = hw.I2C_CR1_ACK) := by
  obtain ⟨r1, -, -, r4, -, -, -, r8, -⟩ :=
    read_fields hw buf rx.length ReadParameter.READ_STOP s
  have hmod : rx.length % 256 = rx.length := Nat.mod_eq_of_lt (by omega)
  have r4f : (read hw buf rx.length ReadParameter.READ_STOP s).restartAfterReading = false :=
    by rw [r4]; rfl
  rw [hmod] at r1
  cases pre with
  | nil =>
    have hae : addr = e := by
      have := congrArg List.head? hsplit
      simpa using this
    subst hae
    obtain ⟨a1, -, -, a4, -, -, -, a8, a9⟩ :=
      raise_isAddrRx_fields hw (read hw buf rx.length ReadParameter.READ_STOP s) addr haddr
    rw [r1, r4f] at a8 a9
    simp only [raiseAll, List.foldl_nil, List.length_nil, Nat.zero_add, Nat.sub_zero,
      Nat.add_zero]
    refine ⟨?_, by rw [a1, r1], by rw [a4, r8], ?_, ?_⟩
    · rw [invocationLog_eq hw _ _ _ a8]
      by_cases h1 : rx.length = 1
      · simp [h1]
      · have h2 : ¬ rx.length ≤ 1 := by omega
        have h3 : ¬ 1 = rx.length := by omega
        simp [h2, h3]
    · intro h1
      have h2 : rx.length ≤ 1 := by omega
      rw [a9]
      simp only [if_pos h2, Bool.false_eq_true, if_false]
      exact ⟨orBits_and_self _ _, fun hd => orBits_andNotBits_and _ _ _ hd⟩
    · intro _ h1
      have h2 : ¬ rx.length ≤ 1 := by omega
      rw [a9, if_neg h2]
      exact orBits_and_self _ _
  | cons p pre2 =>
    have hsp : addr = p ∧ rx = pre2 ++ e :: post := by
      simpa using hsplit
    obtain ⟨hap, hrxs⟩ := hsp
    subst hap
    obtain ⟨a1, a2, -, a4, -, -, -, -, -⟩ :=
      raise_isAddrRx_fields hw (read hw buf rx.length ReadParameter.READ_STOP s) addr haddr
    have hlen : rx.length = pre2.length + 1 + post.length := by
      rw [hrxs]; simp; omega
    have hpre : ∀ x ∈ pre2, x.isRxne hw := fun x hx => hrx x (by rw [hrxs]; simp [hx])
    have he : e.isRxne hw := hrx e (by rw [hrxs]; simp)
    obtain ⟨p1, p2, p3⟩ :=
      raiseAll_isRxne_prefix hw pre2
        (raise hw (read hw buf rx.length ReadParameter.READ_STOP s) addr) hpre
        (by rw [a1, r1]; omega) (by rw [a1, r1]; omega)
    rw [a1, r1] at p1
    rw [a2, r4f] at p2
    rw [a4, r8] at p3
    obtain ⟨f1, -, -, f4, -, -, -, f8, f9⟩ :=
      raise_isRxne_fields hw
        (raiseAll hw (raise hw (read hw buf rx.length ReadParameter.READ_STOP s) addr) pre2)
        e he (by rw [p1]; omega) (by rw [p1]; omega)
    rw [p1, p2] at f8 f9
    rw [raiseAll_cons]
    have hl : (addr :: pre2).length = pre2.length + 1 := rfl
    rw [hl]
    have hiff : rx.length - pre2.length = 2 ↔ pre2.length + 1 + 1 = rx.length := by omega
    refine ⟨?_, ?_, ?_, ?_, ?_⟩
    · rw [invocationLog_eq hw _ _ _ f8]
      by_cases h2 : rx.length - pre2.length = 2
      · simp [h2, hiff.1 h2]
      · have h3 : ¬ pre2.length + 1 + 1 = rx.length := fun h => h2 (hiff.2 h)
        simp [h2, h3]
    · rw [f1, p1]; omega
    · rw [f4, List.length_append, p3, List.length_singleton]; omega
    · intro h1
      have h2 : rx.length - pre2.length = 2 := hiff.2 h1
      rw [f9]
      simp only [if_pos h2, Bool.false_eq_true, if_false]
      exact ⟨orBits_and_self _ _, fun hd => orBits_andNotBits_and _ _ _ hd⟩
    · intro h0
      exact absurd h0 (Nat.succ_ne_zero _)

theorem read_nack_exactly_once_witness :
    invocationLog stm32f10x
      (raiseAll stm32f10x (read stm32f10x 200 3 ReadParameter.READ_STOP powerUp)
        [addrRxEvent, rxneEvent 0xA1]) (rxneEvent 0xB2) =
      [Access.andNotEq Reg.CR1 0x0400, Access.orEq Reg.CR1 0x0200] :=
  (read_nack_exactly_once stm32f10x powerUp 200 addrRxEvent
    [rxneEvent 0xA1, rxneEvent 0xB2, rxneEvent 0xC3] (by decide) (by decide) (by decide)
    (by decide) [addrRxEvent, rxneEvent 0xA1] [rxneEvent 0xC3] (rxneEvent 0xB2) rfl).1

/-! ## Further properties of the control surface -/

/-- C11: `stop` executes `CR1 |= STOP` (leaving the STOP bit set) exactly when the BusState
at the call is neither STOPPED nor RESET, so it does for STANDBY, HOLD and WRITE; when
the BusState is STOPPED or RESET it leaves CR1 unchanged and makes no access to CR1. -/
theorem stop_requests_stop_iff (hw : Hw) (s : State) :
    ((s.busState ≠ BusState.BUS_STOPPED ∧ s.busState ≠ BusState.BUS_RESET) →
      (stop hw s).log =
        s.log ++ [Access.orEq Reg.CR1 hw.I2C_CR1_STOP, Access.andNotEq Reg.CR2 hw.itMask] ∧
      (stop hw s).CR1 = orBits s.CR1 hw.I2C_CR1_STOP ∧
      (stop hw s).CR1 &&& hw.I2C_CR1_STOP = hw.I2C_CR1_STOP) ∧
    ((s.busState = BusState.BUS_STOPPED ∨ s.busState = BusState.BUS_RESET) →
      (stop hw s).log = s.log ++ [Access.andNotEq Reg.CR2 hw.itMask] ∧
      (stop hw s).CR1 = s.CR1) ∧
    (Access.orEq Reg.CR1 hw.I2C_CR1_STOP ∈ (stop hw s).log.drop s.log.length ↔
      (s.busState ≠ BusState.BUS_STOPPED ∧ s.busState ≠ BusState.BUS_RESET)) := by
  have key : (s.busState ≠ BusState.BUS_STOPPED ∧ s.busState ≠ BusState.BUS_RESET) ∨
      (s.busState = BusState.BUS_STOPPED ∨ s.busState = BusState.BUS_RESET) := by
    cases s.busState <;> simp
  have hyes : (s.busState ≠ BusState.BUS_STOPPED ∧ s.busState ≠ BusState.BUS_RESET) →
      (stop hw s).log =
        s.log ++ [Access.orEq Reg.CR1 hw.I2C_CR1_STOP, Access.andNotEq Reg.CR2 hw.itMask] ∧
      (stop hw s).CR1 = orBits s.CR1 hw.I2C_CR1_STOP := by
    intro h
    simp only [stop, andNotCR2, orCR1]
    rw [if_pos (Or.inl h)]
    split_ifs <;> simp
  have hno : (s.busState = BusState.BUS_STOPPED ∨ s.busState = BusState.BUS_RESET) →
      (stop hw s).log = s.log ++ [Access.andNotEq Reg.CR2 hw.itMask] ∧
      (stop hw s).CR1 = s.CR1 := by
    intro h
    have hc : ¬ ((s.busState ≠ BusState.BUS_STOPPED ∧ s.busState ≠ BusState.BUS_RESET) ∨
        s.busState = BusState.BUS_STANDBY) := by
      rcases h with h | h <;> simp [h]
    simp only [stop, andNotCR2, orCR1]
    rw [if_neg hc]
    exact ⟨rfl, rfl⟩
  refine ⟨?_, hno, ?_⟩
  · intro h
    obtain ⟨h1, h2⟩ := hyes h
    exact ⟨h1, h2, by rw [h2]; exact orBits_and_self _ _⟩
  · constructor
    · intro hmem
      rcases key with h | h
      · exact h
      · rw [(hno h).1, List.drop_left] at hmem
        simp at hmem
    · intro h
      rw [(hyes h).1, List.drop_left]
      simp

theorem stop_requests_stop_iff_witness :
    (stop stm32f10x armedExample).log =
      [Access.orEq Reg.CR1 0x0200, Access.andNotEq Reg.CR2 0x0700] ∧
    (stop stm32f10x (run stm32f10x powerUp
      [Step.start 0x50, Step.event sbEvent, Step.read 200 2 ReadParameter.READ_STOP,
        Step.error 0x0100])).log.drop 6 = [Access.andNotEq Reg.CR2 0x0700] :=
  ⟨((stop_requests_stop_iff stm32f10x armedExample).1 (by decide)).1, by decide⟩

/-- The pending-start flag after `stop`: cleared when the stop request is made, kept
otherwise. -/
theorem stop_pending_flag (hw : Hw) (s : State) :
    (stop hw s).startConditionGeneratedWaitingForAddress =
      (if s.busState ≠ BusState.BUS_STOPPED ∧ s.busState ≠ BusState.BUS_RESET then false
      else s.startConditionGeneratedWaitingForAddress) := by
  simp only [stop, andNotCR2, orCR1]
  cases hb : s.busState <;> cases hf : s.startConditionGeneratedWaitingForAddress <;>
    simp [hf]

/-- C12 (evaluation at the failing input): after start, an absorbed start-sent event, a
read and a bus error, the BusState is RESET with the pending-start flag set; `stop`
then leaves BusyState FREE and the pending-start flag still set. -/
theorem stop_keeps_pending_flag_in_reset :
    (run stm32f10x powerUp
      [Step.start 0x50, Step.event sbEvent, Step.read 200 2 ReadParameter.READ_STOP,
        Step.error 0x0100]).busState = BusState.BUS_RESET ∧
    (run stm32f10x powerUp
      [Step.start 0x50, Step.event sbEvent, Step.read 200 2 ReadParameter.READ_STOP,
        Step.error 0x0100]).startConditionGeneratedWaitingForAddress = true ∧
    (stop stm32f10x (run stm32f10x powerUp
      [Step.start 0x50, Step.event sbEvent, Step.read 200 2 ReadParameter.READ_STOP,
        Step.error 0x0100])).startConditionGeneratedWaitingForAddress = true ∧
    (stop stm32f10x (run stm32f10x powerUp
      [Step.start 0x50, Step.event sbEvent, Step.read 200 2 ReadParameter.READ_STOP,
        Step.error 0x0100])).busyState = BusyState.FREE := by
  refine ⟨by decide, by decide, by decide, by decide⟩

/-- C13 (as amended): for every state, every buffer address and every size that fits the
8-bit counter (size ≤ 255), `read` and `write` leave the count equal to size, the
direction receive resp. transmit, the cursor equal to the buffer address, the restart
flag equal to `param == READ_RESTART` for read, BusyState BUSY and all three
interrupt-enable bits set in CR2. -/
theorem read_write_arm (hw : Hw) (s : State) (data size : Nat) (param : ReadParameter)
    (h : size ≤ 255) :
    ((read hw data size param s).bytes_left = size ∧
      (read hw data size param s).reading = true ∧
      (read hw data size param s).readPointer = data ∧
      ((read hw data size param s).restartAfterReading = true ↔
        param = ReadParameter.READ_RESTART) ∧
      (read hw data size param s).busyState = BusyState.BUSY ∧
      (read hw data size param s).CR2 &&& hw.I2C_CR2_ITEVTEN = hw.I2C_CR2_ITEVTEN ∧
      (read hw data size param s).CR2 &&& hw.I2C_CR2_ITBUFEN = hw.I2C_CR2_ITBUFEN ∧
      (read hw data size param s).CR2 &&& hw.I2C_CR2_ITERREN = hw.I2C_CR2_ITERREN) ∧
    ((write hw data size s).bytes_left = size ∧
      (write hw data size s).reading = false ∧
      (write hw data size s).writePointer = data ∧
      (write hw data size s).busyState = BusyState.BUSY ∧
      (write hw data size s).CR2 &&& hw.I2C_CR2_ITEVTEN = hw.I2C_CR2_ITEVTEN ∧
      (write hw data size s).CR2 &&& hw.I2C_CR2_ITBUFEN = hw.I2C_CR2_ITBUFEN ∧
      (write hw data size s).CR2 &&& hw.I2C_CR2_ITERREN = hw.I2C_CR2_ITERREN) := by
  have hmod : size % 256 = size := Nat.mod_eq_of_lt (by omega)
  obtain ⟨r1, r2, r3, r4, r5, r6, -, -, -⟩ := read_fields hw data size param s
  obtain ⟨w1, w2, w3, w4, w5, -, -⟩ := write_fields hw data size s
  have hb := orBits_itMask hw s.CR2
  refine ⟨⟨by rw [r1, hmod], r3, r2, ?_, r5, ?_, ?_, ?_⟩,
    ⟨by rw [w1, hmod], w3, w2, w4, ?_, ?_, ?_⟩⟩
  · rw [r4]; simp
  · rw [r6]; exact hb.1
  · rw [r6]; exact hb.2.1
  · rw [r6]; exact hb.2.2
  · rw [w5]; exact hb.1
  · rw [w5]; exact hb.2.1
  · rw [w5]; exact hb.2.2

theorem read_write_arm_witness :
    (read stm32f10x 200 255 ReadParameter.READ_RESTART powerUp).bytes_left = 255 ∧
    (write stm32f10x 100 255 powerUp).bytes_left = 255 :=
  have h := read_write_arm stm32f10x powerUp 200 255 ReadParameter.READ_RESTART (by decide)
  have h2 := read_write_arm stm32f10x powerUp 100 255 ReadParameter.READ_RESTART (by decide)
  ⟨h.1.1, h2.2.1⟩

/-- C13 fails as stated: a size of 256 is accepted by `read` and `write` and leaves the
8-bit count at 0, not at 256 (and a size of 257 leaves it at 1). -/
theorem read_write_truncate_size :
    (write stm32f10x 100 256 powerUp).bytes_left = 0 ∧
    (read stm32f10x 200 256 ReadParameter.READ_STOP powerUp).bytes_left = 0 ∧
    (write stm32f10x 100 257 powerUp).bytes_left = 1 ∧
    (write stm32f10x 100 256 powerUp).bytes_left ≠ 256 ∧
    (read stm32f10x 200 256 ReadParameter.READ_STOP powerUp).bytes_left ≠ 256 := by
  refine ⟨by decide, by decide, by decide, by decide, by decide⟩

/-- C16 (evaluation at the failing input): after the abandoned transfer the driver is FREE
with the pending-start flag still set; the next `start` succeeds, and the first
start-sent event after it is not absorbed: the handler stores the address byte
(0x50 with the read bit of the abandoned transfer) to the data register, leaves the
interrupt-enable bits and BusyState BUSY as they are and clears the flag. -/
theorem first_start_event_not_absorbed_after_fault :
    (run stm32f10x powerUp abandonedTransfer).busyState = BusyState.FREE ∧
    (run stm32f10x powerUp abandonedTransfer).startConditionGeneratedWaitingForAddress =
      true ∧
    (start stm32f10x 0x50 (run stm32f10x powerUp abandonedTransfer)).1 = true ∧
    invocationLog stm32f10x (start stm32f10x 0x50 (run stm32f10x powerUp abandonedTransfer)).2
      sbEvent = [Access.assign Reg.DR 0x51] ∧
    (raise stm32f10x (start stm32f10x 0x50 (run stm32f10x powerUp abandonedTransfer)).2
      sbEvent).busyState = BusyState.BUSY ∧
    (raise stm32f10x (start stm32f10x 0x50 (run stm32f10x powerUp abandonedTransfer)).2
      sbEvent).CR2 =
      (start stm32f10x 0x50 (run stm32f10x powerUp abandonedTransfer)).2.CR2 ∧
    (raise stm32f10x (start stm32f10x 0x50 (run stm32f10x powerUp abandonedTransfer)).2
      sbEvent).startConditionGeneratedWaitingForAddress = false := by
  refine ⟨by decide, by decide, by decide, by decide, by decide, by decide, by decide⟩

/-! ## Interrupt enabling along runs -/

theorem andNotBits_and_eq_zero (r k m : Nat) (h : r &&& m = 0) :
    andNotBits r k &&& m = 0 := by
  apply Nat.eq_of_testBit_eq
  intro i
  have hi := congrArg (fun n => Nat.testBit n i) h
  have h16 : (65536 : Nat) = 2 ^ 16 := by norm_num
  simp only [Nat.testBit_and, Nat.zero_testBit] at hi
  simp only [andNotBits, h16, Nat.testBit_and, Nat.testBit_mod_two_pow, Nat.zero_testBit]
  cases hr : r.testBit i <;> cases hm : m.testBit i <;> simp_all

theorem Quieter.refl (hw : Hw) (s : State) : Quieter hw s s :=
  ⟨fun h => h, fun h => h, rfl⟩

theorem Quieter.trans (hw : Hw) (s₁ s₂ s₃ : State) (h₁ : Quieter hw s₁ s₂)
    (h₂ : Quieter hw s₂ s₃) : Quieter hw s₁ s₃ :=
  ⟨fun h => h₂.1 (h₁.1 h), fun h => h₁.2.1 (h₂.2.1 h), h₂.2.2.trans h₁.2.2⟩

theorem quieter_sendByte (hw : Hw) (s : State) : Quieter hw s (sendByte hw s) := by
  simp only [sendByte, writeDR, andNotCR2]
  split_ifs
  · exact ⟨fun h => andNotBits_and_eq_zero _ _ _ h, fun h => h, rfl⟩
  · exact ⟨fun h => h, fun h => h, rfl⟩

theorem quieter_nackAndFinish (hw : Hw) (s : State) : Quieter hw s (nackAndFinish hw s) := by
  simp only [nackAndFinish, andNotCR1, orCR1]
  split_ifs <;> exact ⟨fun h => h, fun h => h, rfl⟩

theorem quieter_evStart (hw : Hw) (s : State) : Quieter hw s (evStart hw s) := by
  simp only [evStart, writeDR, andNotCR2]
  split_ifs <;> first
    | exact ⟨fun h => h, fun h => h, rfl⟩
    | exact ⟨fun h => andNotBits_and_eq_zero _ _ _ h, fun h => by simp at h, rfl⟩

theorem quieter_evAddr (hw : Hw) (s : State) : Quieter hw s (evAddr hw s) := by
  simp only [evAddr]
  split_ifs
  · exact Quieter.refl hw s
  · exact quieter_nackAndFinish hw s
  · exact ⟨fun h => h, fun h => h, rfl⟩

theorem quieter_evTxe (hw : Hw) (tmp : Nat) (s : State) : Quieter hw s (evTxe hw tmp s) := by
  simp only [evTxe]
  split_ifs
  · exact ⟨fun h => andNotBits_and_eq_zero _ _ _ h, fun h => by simp at h, rfl⟩
  · exact quieter_sendByte hw s
  · exact quieter_sendByte hw s

theorem quieter_evRxne (hw : Hw) (s : State) : Quieter hw s (evRxne hw s) := by
  simp only [evRxne, nackAndFinish, andNotCR1, orCR1]
  split_ifs <;> first
    | exact ⟨fun h => h, fun h => h, rfl⟩
    | exact ⟨fun h => h, fun h => by simp at h, rfl⟩

/-- The event handler sets no interrupt-enable bit, never makes BusyState FREE and keeps
the deferred-start flag, whatever the status flags. -/
theorem quieter_EV_IRQHandler (hw : Hw) (s : State) :
    Quieter hw s (I2C2_EV_IRQHandler hw s) := by
  simp only [I2C2_EV_IRQHandler]
  have step : ∀ (c : Prop) [Decidable c] (f : State → State) (s₁ : State),
      (∀ x, Quieter hw x (f x)) → Quieter hw s s₁ →
      Quieter hw s (if c then f s₁ else s₁) := by
    intro c _ f s₁ hf h
    split_ifs
    · exact Quieter.trans hw _ _ _ h (hf s₁)
    · exact h
  apply step _ (evRxne hw) _ (quieter_evRxne hw)
  apply step _ (evTxe hw s.SR1) _ (quieter_evTxe hw s.SR1)
  apply step _ (evAddr hw) _ (quieter_evAddr hw)
  apply step _ (evStart hw) _ (quieter_evStart hw)
  exact Quieter.refl hw s

theorem not_enabled_of_quieter (hw : Hw) (s s₂ : State) (hq : Quieter hw s s₂)
    (h : ¬ EnabledWhileFreeAndDeferred hw s) : ¬ EnabledWhileFreeAndDeferred hw s₂ := by
  rintro ⟨he, hf, hd⟩
  apply h
  refine ⟨?_, hq.2.1 hf, by rw [← hq.2.2]; exact hd⟩
  intro hz
  exact he (hq.1 hz)

/-- No step leads into a state with interrupts enabled, BusyState FREE and a pending
deferred start. -/
theorem step_not_enabled (hw : Hw) (s : State) (st : Step)
    (h : ¬ EnabledWhileFreeAndDeferred hw s) :
    ¬ EnabledWhileFreeAndDeferred hw (Step.apply hw s st) := by
  cases st with
  | start a =>
    by_cases hb : s.busyState = BusyState.FREE
    · rintro ⟨-, hf, -⟩
      simp only [Step.apply, start, hb, if_true, orCR1, writeDR] at hf
      split_ifs at hf
    · have hs : (start hw a s).2 = s := by simp [start, hb]
      simp only [Step.apply, hs]
      exact h
  | restart a =>
    rintro ⟨-, hf, -⟩
    exact absurd hf (by simp [Step.apply, restart, orCR1])
  | stop =>
    rintro ⟨he, -, -⟩
    apply he
    have hcr2 : (stop hw s).CR2 = andNotBits s.CR2 hw.itMask := by
      simp only [stop, andNotCR2, orCR1]
      split_ifs <;> rfl
    show (stop hw s).CR2 &&& hw.itMask = 0
    rw [hcr2]
    exact andNotBits_and_self _ _
  | read data size param =>
    rintro ⟨-, hf, -⟩
    exact absurd hf (by simp [Step.apply, read, orCR2])
  | write data size =>
    rintro ⟨-, hf, -⟩
    exact absurd hf (by simp [Step.apply, write, orCR2])
  | getBusyState =>
    by_cases hc : s.waitForStartConditionAfterWriteFollowedByRestart = true ∧
        s.CR1 &&& hw.I2C_CR1_START = 0
    · rintro ⟨-, -, hd⟩
      simp only [Step.apply, getBusyState, hc, and_self, if_true, orCR2] at hd
      split_ifs at hd
    · have hs : (getBusyState hw s).2 = s := by
        simp only [getBusyState, hc, if_false]
        split_ifs <;> rfl
      simp only [Step.apply, hs]
      exact h
  | getBusState => exact h
  | event e =>
    have hq := quieter_EV_IRQHandler hw { s with SR1 := e.sr1, SR2 := e.sr2, DR := e.dr }
    exact not_enabled_of_quieter hw s _ ⟨hq.1, hq.2.1, hq.2.2⟩ h
  | error sr1 =>
    rintro ⟨-, -, hd⟩
    exact absurd hd (by simp [Step.apply, I2C2_ER_IRQHandler])

theorem run_not_enabled (hw : Hw) (steps : List Step) (s : State)
    (h : ¬ EnabledWhileFreeAndDeferred hw s) :
    ¬ EnabledWhileFreeAndDeferred hw (run hw s steps) := by
  induction steps generalizing s with
  | nil => exact h
  | cons st rest ih => exact ih (Step.apply hw s st) (step_not_enabled hw s st h)

/-- C14 (as amended): in every state reachable from a power-up state by control-surface
calls and handler invocations, interrupts are never enabled while BusyState is FREE
and the deferred-start flag is set; from such a state `read` and `write` leave all three
interrupt-enable bits set with BusyState BUSY, `stop` and the error handler leave no
interrupt-enable bit set, and `restart` (and a successful `start`) leaves the
deferred-start flag set exactly when no interrupt-enable bit is set. -/
theorem interrupts_along_runs (hw : Hw) (s₀ : State) (h₀ : isPowerUp hw s₀)
    (steps : List Step) :
    ¬ EnabledWhileFreeAndDeferred hw (run hw s₀ steps) ∧
    (∀ data size param,
      (read hw data size param (run hw s₀ steps)).CR2 &&& hw.itMask = hw.itMask ∧
      (read hw data size param (run hw s₀ steps)).busyState = BusyState.BUSY) ∧
    (∀ data size,
      (write hw data size (run hw s₀ steps)).CR2 &&& hw.itMask = hw.itMask ∧
      (write hw data size (run hw s₀ steps)).busyState = BusyState.BUSY) ∧
    ¬ interruptsEnabled hw (stop hw (run hw s₀ steps)) ∧
    (∀ sr1, ¬ interruptsEnabled hw
      (I2C2_ER_IRQHandler hw { run hw s₀ steps with SR1 := sr1 })) ∧
    (∀ a, ((restart hw a (run hw s₀ steps)).waitForStartConditionAfterWriteFollowedByRestart
      = true ↔ ¬ interruptsEnabled hw (run hw s₀ steps))) ∧
    (∀ a, (start hw a (run hw s₀ steps)).1 = true →
      ((start hw a (run hw s₀ steps)).2.waitForStartConditionAfterWriteFollowedByRestart
        = true ↔ ¬ interruptsEnabled hw (run hw s₀ steps))) := by
  have hinit : ¬ EnabledWhileFreeAndDeferred hw s₀ := by
    rintro ⟨-, -, hd⟩
    rw [h₀.2.2.1] at hd
    exact absurd hd (by decide)
  refine ⟨run_not_enabled hw steps s₀ hinit, ?_, ?_, ?_, ?_, ?_, ?_⟩
  · intro data size param
    exact ⟨orBits_and_self _ _, rfl⟩
  · intro data size
    exact ⟨orBits_and_self _ _, rfl⟩
  · intro he
    apply he
    have hcr2 : (stop hw (run hw s₀ steps)).CR2 =
        andNotBits (run hw s₀ steps).CR2 hw.itMask := by
      simp only [stop, andNotCR2, orCR1]
      split_ifs <;> rfl
    rw [hcr2]
    exact andNotBits_and_self _ _
  · intro sr1 he
    apply he
    have hcr2 : (I2C2_ER_IRQHandler hw { run hw s₀ steps with SR1 := sr1 }).CR2 =
        andNotBits (run hw s₀ steps).CR2 hw.itMask := by
      simp only [I2C2_ER_IRQHandler, orCR1, andNotCR2, writeSR1]
      split_ifs <;> rfl
    rw [hcr2]
    exact andNotBits_and_self _ _
  · intro a
    simp [restart, orCR1, interruptsEnabled]
  · intro a ha
    by_cases hb : (run hw s₀ steps).busyState = BusyState.FREE
    · simp only [start, hb, if_true, orCR1, writeDR, interruptsEnabled]
      split_ifs <;> simp
    · simp [start, hb] at ha

theorem interrupts_along_runs_witness :
    ¬ EnabledWhileFreeAndDeferred stm32f10x
      (run stm32f10x powerUp (abandonedTransfer ++ [Step.getBusyState])) ∧
    (read stm32f10x 200 2 ReadParameter.READ_STOP
      (run stm32f10x powerUp [Step.start 0x50, Step.event sbEvent])).CR2 = 0x0724 :=
  have h := interrupts_along_runs stm32f10x powerUp (by decide)
    (abandonedTransfer ++ [Step.getBusyState])
  ⟨h.1, by decide⟩

/-- C14 fails as stated: after `start` from power-up BusyState is BUSY and the
deferred-start flag is set, yet no interrupt-enable bit is set. (The other direction
fails too once the hardware has cleared the START bit: after `start`, `stop` and
`getBusyState` interrupts are enabled with BusyState FREE and the flag clear.) -/
theorem enabled_iff_outstanding_fails :
    isPowerUp stm32f10x powerUp ∧
    (run stm32f10x powerUp [Step.start 0x50]).busyState = BusyState.BUSY ∧
    (run stm32f10x powerUp [Step.start 0x50]).waitForStartConditionAfterWriteFollowedByRestart
      = true ∧
    ¬ interruptsEnabled stm32f10x (run stm32f10x powerUp [Step.start 0x50]) ∧
    ¬ (interruptsEnabled stm32f10x (run stm32f10x powerUp [Step.start 0x50]) ↔
      ((run stm32f10x powerUp [Step.start 0x50]).busyState = BusyState.BUSY ∨
        (run stm32f10x powerUp [Step.start 0x50]).busyState = BusyState.OCCUPIED ∨
        (run stm32f10x powerUp
          [Step.start 0x50]).waitForStartConditionAfterWriteFollowedByRestart = true)) ∧
    interruptsEnabled stm32f10x
      (getBusyState stm32f10x
        { run stm32f10x powerUp [Step.start 0x50, Step.stop] with CR1 := 0x0001 }).2 ∧
    (getBusyState stm32f10x
      { run stm32f10x powerUp [Step.start 0x50, Step.stop] with CR1 := 0x0001 }).2.busyState
      = BusyState.FREE ∧
    (getBusyState stm32f10x
      { run stm32f10x powerUp [Step.start 0x50, Step.stop] with
        CR1 := 0x0001 }).2.waitForStartConditionAfterWriteFollowedByRestart = false := by
  refine ⟨by decide, by decide, by decide, by decide, by decide, by decide, by decide,
    by decide⟩

/-! ## The byte counter in the handlers -/

theorem evStart_bytes_left (hw : Hw) (s : State) :
    (evStart hw s).bytes_left = s.bytes_left := by
  simp only [evStart, writeDR, andNotCR2]
  split_ifs <;> rfl

theorem evAddr_bytes_left (hw : Hw) (s : State) :
    (evAddr hw s).bytes_left = s.bytes_left := by
  simp only [evAddr, nackAndFinish, andNotCR1, orCR1]
  split_ifs <;> rfl

theorem sendByte_bytes_left (hw : Hw) (s : State) :
    (sendByte hw s).bytes_left = (s.bytes_left + 255) % 256 := by
  simp only [sendByte, writeDR, andNotCR2]
  split_ifs <;> rfl

theorem evTxe_bytes_left (hw : Hw) (tmp : Nat) (s : State) :
    (evTxe hw tmp s).bytes_left =
      (if tmp &&& hw.I2C_SR1_BTF ≠ 0 ∧ s.bytes_left = 0 then s.bytes_left
      else (s.bytes_left + 255) % 256) := by
  simp only [evTxe]
  split_ifs with h1 h2 h3 h4 h5
  · rfl
  · exact absurd ⟨h1, h2⟩ h3
  · exact absurd h4.2 h2
  · exact sendByte_bytes_left hw s
  · exact absurd h5.1 h1
  · exact sendByte_bytes_left hw s

theorem evRxne_bytes_left (hw : Hw) (s : State) :
    (evRxne hw s).bytes_left = (s.bytes_left + 255) % 256 := by
  simp only [evRxne, nackAndFinish, andNotCR1, orCR1]
  split_ifs <;> rfl

/-- The byte counter after one run of the event handler, for every state and every
combination of status flags. -/
theorem EV_IRQHandler_bytes_left (hw : Hw) (s : State) :
    (I2C2_EV_IRQHandler hw s).bytes_left =
      (if s.SR1 &&& hw.I2C_SR1_RXNE ≠ 0 then
        ((if s.SR1 &&& hw.I2C_SR1_TXE ≠ 0 then
          (if s.SR1 &&& hw.I2C_SR1_BTF ≠ 0 ∧ s.bytes_left = 0 then s.bytes_left
          else (s.bytes_left + 255) % 256)
        else s.bytes_left) + 255) % 256
      else
        (if s.SR1 &&& hw.I2C_SR1_TXE ≠ 0 then
          (if s.SR1 &&& hw.I2C_SR1_BTF ≠ 0 ∧ s.bytes_left = 0 then s.bytes_left
          else (s.bytes_left + 255) % 256)
        else s.bytes_left)) := by
  simp only [I2C2_EV_IRQHandler, apply_ite State.bytes_left, evRxne_bytes_left,
    evTxe_bytes_left, evAddr_bytes_left, evStart_bytes_left, ite_self]

/-- C15 (as amended): for every state with a count of at most 255 and every combination
of status flags, if the count at entry is at least the number of bytes the invocation
handles (one in the TXE block unless BTF is set with count 0, one in the RXNE block),
the count after the event handler is the count before minus that number, hence not
greater; the error handler leaves the count unchanged in every state. -/
theorem handlers_only_decrement (hw : Hw) (s : State) (h255 : s.bytes_left ≤ 255)
    (hcnt : bytesHandled hw s ≤ s.bytes_left) :
    (I2C2_EV_IRQHandler hw s).bytes_left = s.bytes_left - bytesHandled hw s ∧
    (I2C2_EV_IRQHandler hw s).bytes_left ≤ s.bytes_left ∧
    (I2C2_ER_IRQHandler hw s).bytes_left = s.bytes_left := by
  have her : (I2C2_ER_IRQHandler hw s).bytes_left = s.bytes_left := by
    simp only [I2C2_ER_IRQHandler, orCR1, andNotCR2, writeSR1]
    split_ifs <;> rfl
  have hev : (I2C2_EV_IRQHandler hw s).bytes_left = s.bytes_left - bytesHandled hw s := by
    rw [EV_IRQHandler_bytes_left]
    unfold bytesHandled at hcnt ⊢
    split_ifs at hcnt ⊢ <;> omega
  exact ⟨hev, by rw [hev]; exact Nat.sub_le _ _, her⟩

theorem handlers_only_decrement_witness :
    (I2C2_EV_IRQHandler stm32f10x { armedExample with SR1 := 0x00C0 }).bytes_left = 1 ∧
    (I2C2_ER_IRQHandler stm32f10x { armedExample with SR1 := 0x00C0 }).bytes_left = 3 :=
  have h := handlers_only_decrement stm32f10x { armedExample with SR1 := 0x00C0 }
    (by decide) (by decide)
  ⟨h.1, h.2.2⟩

/-- C15 fails as stated: entered with no byte left and only TXE set (or only RXNE set),
the event handler leaves the 8-bit count at 255, which is greater than 0. -/
theorem event_handler_count_wraps :
    exhaustedExample.bytes_left = 0 ∧
    (I2C2_EV_IRQHandler stm32f10x exhaustedExample).bytes_left = 255 ∧
    (I2C2_EV_IRQHandler stm32f10x { emptyReadExample with SR1 := 0x0040 }).bytes_left = 255 ∧
    ¬ ((I2C2_EV_IRQHandler stm32f10x exhaustedExample).bytes_left ≤
      exhaustedExample.bytes_left) := by
  refine ⟨by decide, by decide, by decide, by decide⟩

/-! ## Single events -/

/-- A start-sent event runs the SB block only. -/
theorem raise_isSb (hw : Hw) (s : State) (e : Event) (he : e.isSb hw) :
    raise hw s e = evStart hw { s with SR1 := e.sr1, SR2 := e.sr2, DR := e.dr } := by
  obtain ⟨h1, h2, h3, h4⟩ := he
  simp [raise, I2C2_EV_IRQHandler, h1, h2, h3, h4]

/-- C17: the event handler entered with only SB set among the tested flags. If the
pending-start flag is false it sets the flag, executes `CR2 &= ~(ITEVTEN|ITBUFEN|ITERREN)`
as its only register access (so nothing is stored to the data register), sets BusState
to STANDBY unless it is HOLD, and sets BusyState OCCUPIED. If the flag is true it clears
the flag, stores `address | READ` (direction receive) or `address | WRITE` (otherwise)
to the data register as its only access, and keeps BusState, BusyState and CR2. -/
theorem start_sent_event (hw : Hw) (s : State) (e : Event) (he : e.isSb hw) :
    (s.startConditionGeneratedWaitingForAddress = false →
      (raise hw s e).startConditionGeneratedWaitingForAddress = true ∧
      invocationLog hw s e = [Access.andNotEq Reg.CR2 hw.itMask] ∧
      (raise hw s e).CR2 &&& hw.I2C_CR2_ITEVTEN = 0 ∧
      (raise hw s e).CR2 &&& hw.I2C_CR2_ITBUFEN = 0 ∧
      (raise hw s e).CR2 &&& hw.I2C_CR2_ITERREN = 0 ∧
      (raise hw s e).busState =
        (if s.busState = BusState.BUS_HOLD then BusState.BUS_HOLD
        else BusState.BUS_STANDBY) ∧
      (raise hw s e).busyState = BusyState.OCCUPIED) ∧
    (s.startConditionGeneratedWaitingForAddress = true →
      (raise hw s e).startConditionGeneratedWaitingForAddress = false ∧
      invocationLog hw s e =
        [Access.assign Reg.DR (s.address ||| (if s.reading then hw.READ else hw.WRITE))] ∧
      (raise hw s e).busState = s.busState ∧
      (raise hw s e).busyState = s.busyState ∧
      (raise hw s e).CR2 = s.CR2) := by
  have hr := raise_isSb hw s e he
  constructor
  · intro hf
    have hlog : (raise hw s e).log = s.log ++ [Access.andNotEq Reg.CR2 hw.itMask] := by
      rw [hr]
      simp only [evStart, andNotCR2, hf, Bool.not_false, if_true]
      split_ifs <;> rfl
    have hcr2 : (raise hw s e).CR2 = andNotBits s.CR2 hw.itMask := by
      rw [hr]
      simp only [evStart, andNotCR2, hf, Bool.not_false, if_true]
      split_ifs <;> rfl
    have hz := (and_itMask_eq_zero hw _).1 (andNotBits_and_self s.CR2 hw.itMask)
    refine ⟨?_, invocationLog_eq hw s e _ hlog, ?_, ?_, ?_, ?_, ?_⟩
    · rw [hr]
      simp only [evStart, andNotCR2, hf, Bool.not_false, if_true]
      split_ifs <;> rfl
    · rw [hcr2]; exact hz.1
    · rw [hcr2]; exact hz.2.1
    · rw [hcr2]; exact hz.2.2
    · rw [hr]
      simp only [evStart, andNotCR2, hf, Bool.not_false, if_true]
      cases hb : s.busState <;> simp
    · rw [hr]
      simp only [evStart, andNotCR2, hf, Bool.not_false, if_true]
  · intro hf
    have hlog : (raise hw s e).log = s.log ++
        [Access.assign Reg.DR (s.address ||| (if s.reading then hw.READ else hw.WRITE))] := by
      rw [hr]
      simp [evStart, writeDR, hf]
    refine ⟨?_, invocationLog_eq hw s e _ hlog, ?_, ?_, ?_⟩ <;>
    · rw [hr]
      simp [evStart, writeDR, hf]

theorem start_sent_event_witness :
    invocationLog stm32f10x (start stm32f10x 0x50 powerUp).2 sbEvent =
      [Access.andNotEq Reg.CR2 0x0700] ∧
    (raise stm32f10x (start stm32f10x 0x50 powerUp).2 sbEvent).busyState =
      BusyState.OCCUPIED ∧
    invocationLog stm32f10x
      (read stm32f10x 200 2 ReadParameter.READ_STOP
        (raise stm32f10x (start stm32f10x 0x50 powerUp).2 sbEvent)) sbEvent =
      [Access.assign Reg.DR 0x51] :=
  have h := (start_sent_event stm32f10x (start stm32f10x 0x50 powerUp).2 sbEvent
    (by decide)).1 (by decide)
  ⟨h.2.1, h.2.2.2.2.2.2, by decide⟩

/-- An address-acknowledged event in transmit direction changes nothing but the
registers the hardware presented. -/
theorem raise_isAddrTx (hw : Hw) (s : State) (e : Event) (he : e.isAddrTx hw) :
    raise hw s e = { s with SR1 := e.sr1, SR2 := e.sr2, DR := e.dr } := by
  obtain ⟨h1, h2, h3, h4, h5⟩ := he
  simp [raise, I2C2_EV_IRQHandler, evAddr, h1, h2, h3, h4, h5]

/-- C18 (as amended): on an address-acknowledged event in receive direction the handler
executes `CR1 &= ~ACK` followed by `CR1 |= START` (restart requested) or `CR1 |= STOP`
(otherwise) if and only if at most one byte remains (count 0 or 1), and executes
`CR1 |= ACK`, leaving ACK set, if and only if more than one byte remains; in transmit
direction it makes no register access and changes neither CR1 nor a driver variable. -/
theorem address_event (hw : Hw) (s : State) (e : Event) :
    (e.isAddrRx hw →
      (invocationLog hw s e =
          [Access.andNotEq Reg.CR1 hw.I2C_CR1_ACK,
            Access.orEq Reg.CR1 (if s.restartAfterReading then hw.I2C_CR1_START
              else hw.I2C_CR1_STOP)] ↔ s.bytes_left ≤ 1) ∧
      (invocationLog hw s e = [Access.orEq Reg.CR1 hw.I2C_CR1_ACK] ↔ 1 < s.bytes_left) ∧
      (s.bytes_left ≤ 1 →
        (raise hw s e).CR1 = orBits (andNotBits s.CR1 hw.I2C_CR1_ACK)
          (if s.restartAfterReading then hw.I2C_CR1_START else hw.I2C_CR1_STOP)) ∧
      (1 < s.bytes_left → (raise hw s e).CR1 &&& hw.I2C_CR1_ACK = hw.I2C_CR1_ACK) ∧
      (raise hw s e).bytes_left = s.bytes_left ∧
      (raise hw s e).busState = s.busState ∧
      (raise hw s e).busyState = s.busyState) ∧
    (e.isAddrTx hw →
      raise hw s e = { s with SR1 := e.sr1, SR2 := e.sr2, DR := e.dr } ∧
      invocationLog hw s e = [] ∧
      (raise hw s e).CR1 = s.CR1) := by
  constructor
  · intro he
    obtain ⟨a1, -, -, -, -, a6, a7, a8, a9⟩ := raise_isAddrRx_fields hw s e he
    have hl := invocationLog_eq hw s e _ a8
    refine ⟨?_, ?_, ?_, ?_, a1, a6, a7⟩
    · rw [hl]
      by_cases h : s.bytes_left ≤ 1
      · simp [h]
      · simp [h]
    · rw [hl]
      by_cases h : s.bytes_left ≤ 1
      · have h2 : ¬ 1 < s.bytes_left := by omega
        simp [h, h2]
      · have h2 : 1 < s.bytes_left := by omega
        simp [h, h2]
    · intro h
      rw [a9, if_pos h]
    · intro h
      have h2 : ¬ s.bytes_left ≤ 1 := by omega
      rw [a9, if_neg h2]
      exact orBits_and_self _ _
  · intro he
    have hr := raise_isAddrTx hw s e he
    refine ⟨hr, ?_, by rw [hr]⟩
    apply invocationLog_eq
    rw [hr]
    simp

theorem address_event_witness :
    invocationLog stm32f10x (read stm32f10x 200 1 ReadParameter.READ_STOP powerUp)
      addrRxEvent = [Access.andNotEq Reg.CR1 0x0400, Access.orEq Reg.CR1 0x0200] ∧
    invocationLog stm32f10x (write stm32f10x 100 2 bufferExample) addrTxEvent = [] :=
  have h := address_event stm32f10x (read stm32f10x 200 1 ReadParameter.READ_STOP powerUp)
    addrRxEvent
  have h2 := address_event stm32f10x (write stm32f10x 100 2 bufferExample) addrTxEvent
  ⟨((h.1 (by decide)).1).2 (by decide), (h2.2 (by decide)).2.1⟩

/-- C18 fails as stated: with no byte left (count 0, not 1) the address-acknowledged
event in receive direction still switches acknowledge off and requests a stop. -/
theorem address_event_nacks_at_zero :
    emptyReadExample.bytes_left = 0 ∧
    invocationLog stm32f10x emptyReadExample addrRxEvent =
      [Access.andNotEq Reg.CR1 0x0400, Access.orEq Reg.CR1 0x0200] ∧
    (raise stm32f10x emptyReadExample addrRxEvent).CR1 = 0x0201 := by
  refine ⟨by decide, by decide, by decide⟩

/-- C19 (as amended): on a data-register-empty event without byte-transfer-finished,
entered with a count between 1 and 255, the handler stores exactly the byte at the
write cursor to the data register, advances the cursor by one, lowers the count by one
and executes `CR2 &= ~ITBUFEN` (leaving ITBUFEN clear) exactly when the count reaches 0;
otherwise CR2 is unchanged. -/
theorem txe_event_sends_next_byte (hw : Hw) (s : State) (e : Event) (he : e.isTxe hw)
    (h1 : 1 ≤ s.bytes_left) (h2 : s.bytes_left ≤ 255) :
    invocationLog hw s e =
      Access.assign Reg.DR (s.mem s.writePointer % 256) ::
        (if s.bytes_left = 1 then [Access.andNotEq Reg.CR2 hw.I2C_CR2_ITBUFEN] else []) ∧
    drWrites (invocationLog hw s e) = [s.mem s.writePointer % 256] ∧
    (raise hw s e).writePointer = s.writePointer + 1 ∧
    (raise hw s e).bytes_left = s.bytes_left - 1 ∧
    (s.bytes_left = 1 → (raise hw s e).CR2 &&& hw.I2C_CR2_ITBUFEN = 0) ∧
    (s.bytes_left ≠ 1 → (raise hw s e).CR2 = s.CR2) := by
  obtain ⟨f1, f2, -, -, -, -, f7⟩ := raise_isTxe_fields hw s e he h1 h2
  have hl := invocationLog_eq hw s e _ f7
  have hd := dec_bytes_left s.bytes_left h1 h2
  have hz : s.bytes_left - 1 = 0 ↔ s.bytes_left = 1 := by omega
  have hcr2 : (raise hw s e).CR2 =
      if s.bytes_left = 1 then andNotBits s.CR2 hw.I2C_CR2_ITBUFEN else s.CR2 := by
    rw [raise_isTxe hw s e he]
    simp only [sendByte, writeDR, andNotCR2, hd, hz]
    split_ifs <;> rfl
  refine ⟨hl, ?_, f2, f1, ?_, ?_⟩
  · rw [hl]
    split_ifs <;> rfl
  · intro h
    rw [hcr2, if_pos h]
    exact andNotBits_and_self _ _
  · intro h
    rw [hcr2, if_neg h]

theorem txe_event_sends_next_byte_witness :
    invocationLog stm32f10x (write stm32f10x 100 1 bufferExample) txeEvent =
      [Access.assign Reg.DR 0x01, Access.andNotEq Reg.CR2 0x0400] ∧
    (raise stm32f10x (write stm32f10x 100 1 bufferExample) txeEvent).bytes_left = 0 :=
  have h := txe_event_sends_next_byte stm32f10x (write stm32f10x 100 1 bufferExample)
    txeEvent (by decide) (by decide) (by decide)
  ⟨h.1, h.2.2.2.1⟩

/-- C19 fails as stated: entered with no byte left (after a `write` of size 0), the
data-register-empty event still stores the byte at the cursor to the data register,
advances the cursor and leaves the count at 255. -/
theorem txe_event_at_zero_sends :
    (write stm32f10x 100 0 bufferExample).bytes_left = 0 ∧
    invocationLog stm32f10x (write stm32f10x 100 0 bufferExample) txeEvent =
      [Access.assign Reg.DR 0x01] ∧
    (raise stm32f10x (write stm32f10x 100 0 bufferExample) txeEvent).writePointer = 101 ∧
    (raise stm32f10x (write stm32f10x 100 0 bufferExample) txeEvent).bytes_left = 255 := by
  refine ⟨by decide, by decide, by decide, by decide⟩

/-- C20: in a read of N bytes armed with restart, 1 ≤ N ≤ 255, take any invocation of the
handler in the sequence (address-acknowledged event, then N data-received events),
`pre` being the events handled before it. Invocation number N-1, where the count is 1
for the first time, executes `CR1 &= ~ACK; CR1 |= START`; the address event of a longer
read only executes `CR1 |= ACK`; every other invocation makes no register access, so
`CR1 |= STOP` is never executed (the masks being distinct). The last invocation, where
the count reaches 0, sets BusState HOLD and leaves BusyState as it was before it. -/
theorem read_restart_holds_bus (hw : Hw) (s : State) (buf : Nat) (addr : Event)
    (rx : List Event) (hN1 : 1 ≤ rx.length) (hN2 : rx.length ≤ 255)
    (haddr : addr.isAddrRx hw) (hrx : ∀ e ∈ rx, e.isRxne hw)
    (pre post : List Event) (e : Event) (hsplit : addr :: rx = pre ++ e :: post) :
    invocationLog hw (raiseAll hw (read hw buf rx.length ReadParameter.READ_RESTART s) pre)
        e =
      (if pre.length + 1 = rx.length then
        [Access.andNotEq Reg.CR1 hw.I2C_CR1_ACK, Access.orEq Reg.CR1 hw.I2C_CR1_START]
      else if pre.length = 0 then [Access.orEq Reg.CR1 hw.I2C_CR1_ACK] else []) ∧
    (hw.I2C_CR1_START ≠ hw.I2C_CR1_STOP → hw.I2C_CR1_ACK ≠ hw.I2C_CR1_STOP →
      Access.orEq Reg.CR1 hw.I2C_CR1_STOP ∉
        invocationLog hw
          (raiseAll hw (read hw buf rx.length ReadParameter.READ_RESTART s) pre) e) ∧
    (raise hw (raiseAll hw (read hw buf rx.length ReadParameter.READ_RESTART s) pre)
      e).bytes_left = rx.length - pre.length ∧
    (pre.length + 1 = rx.length →
      (raise hw (raiseAll hw (read hw buf rx.length ReadParameter.READ_RESTART s) pre)
        e).CR1 &&& hw.I2C_CR1_START = hw.I2C_CR1_START) ∧
    (pre.length = rx.length →
      (raise hw (raiseAll hw (read hw buf rx.length ReadParameter.READ_RESTART s) pre)
        e).busState = BusState.BUS_HOLD ∧
      (raise hw (raiseAll hw (read hw buf rx.length ReadParameter.READ_RESTART s) pre)
        e).busyState =
        (raiseAll hw (read hw buf rx.length ReadParameter.READ_RESTART s) pre).busyState) := by
  obtain ⟨r1, -, -, r4, -, -, -, -, -⟩ :=
    read_fields hw buf rx.length ReadParameter.READ_RESTART s
  have hmod : rx.length % 256 = rx.length := Nat.mod_eq_of_lt (by omega)
  have r4t : (read hw buf rx.length ReadParameter.READ_RESTART s).restartAfterReading = true :=
    by rw [r4]; rfl
  rw [hmod] at r1
  have hlog : invocationLog hw
      (raiseAll hw (read hw buf rx.length ReadParameter.READ_RESTART s) pre) e =
      (if pre.length + 1 = rx.length then
        [Access.andNotEq Reg.CR1 hw.I2C_CR1_ACK, Access.orEq Reg.CR1 hw.I2C_CR1_START]
      else if pre.length = 0 then [Access.orEq Reg.CR1 hw.I2C_CR1_ACK] else []) ∧
    (raise hw (raiseAll hw (read hw buf rx.length ReadParameter.READ_RESTART s) pre)
      e).bytes_left = rx.length - pre.length ∧
    (pre.length + 1 = rx.length →
      (raise hw (raiseAll hw (read hw buf rx.length ReadParameter.READ_RESTART s) pre)
        e).CR1 &&& hw.I2C_CR1_START = hw.I2C_CR1_START) ∧
    (pre.length = rx.length →
      (raise hw (raiseAll hw (read hw buf rx.length ReadParameter.READ_RESTART s) pre)
        e).busState = BusState.BUS_HOLD ∧
      (raise hw (raiseAll hw (read hw buf rx.length ReadParameter.READ_RESTART s) pre)
        e).busyState =
        (raiseAll hw (read hw buf rx.length ReadParameter.READ_RESTART s) pre).busyState) := by
    cases pre with
    | nil =>
      have hae : addr = e := by
        have := congrArg List.head? hsplit
        simpa using this
      subst hae
      obtain ⟨a1, -, -, -, -, -, -, a8, a9⟩ :=
        raise_isAddrRx_fields hw (read hw buf rx.length ReadParameter.READ_RESTART s) addr
          haddr
      rw [r1, r4t] at a8 a9
      simp only [raiseAll, List.foldl_nil, List.length_nil, Nat.zero_add, Nat.sub_zero]
      refine ⟨?_, by rw [a1, r1], ?_, ?_⟩
      · rw [invocationLog_eq hw _ _ _ a8]
        by_cases h1 : rx.length = 1
        · simp [h1]
        · have h2 : ¬ rx.length ≤ 1 := by omega
          have h3 : ¬ 1 = rx.length := by omega
          simp [h2, h3]
      · intro h1
        have h2 : rx.length ≤ 1 := by omega
        rw [a9]
        simp only [if_pos h2, if_true]
        exact orBits_and_self _ _
      · intro h0
        omega
    | cons p pre2 =>
      have hsp : addr = p ∧ rx = pre2 ++ e :: post := by
        simpa using hsplit
      obtain ⟨hap, hrxs⟩ := hsp
      subst hap
      obtain ⟨a1, a2, -, -, -, -, -, -, -⟩ :=
        raise_isAddrRx_fields hw (read hw buf rx.length ReadParameter.READ_RESTART s) addr
          haddr
      have hlen : rx.length = pre2.length + 1 + post.length := by
        rw [hrxs]; simp; omega
      have hpre : ∀ x ∈ pre2, x.isRxne hw := fun x hx => hrx x (by rw [hrxs]; simp [hx])
      have he : e.isRxne hw := hrx e (by rw [hrxs]; simp)
      obtain ⟨p1, p2, -⟩ :=
        raiseAll_isRxne_prefix hw pre2
          (raise hw (read hw buf rx.length ReadParameter.READ_RESTART s) addr) hpre
          (by rw [a1, r1]; omega) (by rw [a1, r1]; omega)
      rw [a1, r1] at p1
      rw [a2, r4t] at p2
      obtain ⟨f1, -, -, -, -, f6, f7, f8, f9⟩ :=
        raise_isRxne_fields hw
          (raiseAll hw (raise hw (read hw buf rx.length ReadParameter.READ_RESTART s) addr)
            pre2)
          e he (by rw [p1]; omega) (by rw [p1]; omega)
      rw [p1, p2] at f6 f7 f8 f9
      rw [raiseAll_cons]
      have hl : (addr :: pre2).length = pre2.length + 1 := rfl
      rw [hl]
      have hiff : rx.length - pre2.length = 2 ↔ pre2.length + 1 + 1 = rx.length := by omega
      refine ⟨?_, ?_, ?_, ?_⟩
      · rw [invocationLog_eq hw _ _ _ f8]
        by_cases h2 : rx.length - pre2.length = 2
        · simp [h2, hiff.1 h2]
        · have h3 : ¬ pre2.length + 1 + 1 = rx.length := fun h => h2 (hiff.2 h)
          simp [h2, h3]
      · rw [f1, p1]; omega
      · intro h1
        have h2 : rx.length - pre2.length = 2 := hiff.2 h1
        rw [f9]
        simp only [if_pos h2, if_true]
        exact orBits_and_self _ _
      · intro hN
        have h1 : rx.length - pre2.length = 1 := by omega
        rw [f6, f7]
        simp [h1]
  refine ⟨hlog.1, ?_, hlog.2.1, hlog.2.2.1, hlog.2.2.2⟩
  intro hSS hAS
  rw [hlog.1]
  split_ifs
  · simp [Ne.symm hSS]
  · simp [Ne.symm hAS]
  · simp

theorem read_restart_holds_bus_witness :
    invocationLog stm32f10x
      (raiseAll stm32f10x (read stm32f10x 200 3 ReadParameter.READ_RESTART powerUp)
        [addrRxEvent, rxneEvent 0xA1]) (rxneEvent 0xB2) =
      [Access.andNotEq Reg.CR1 0x0400, Access.orEq Reg.CR1 0x0100] ∧
    (raiseAll stm32f10x (read stm32f10x 200 3 ReadParameter.READ_RESTART powerUp)
      [addrRxEvent, rxneEvent 0xA1, rxneEvent 0xB2, rxneEvent 0xC3]).busState =
      BusState.BUS_HOLD ∧
    (raiseAll stm32f10x (read stm32f10x 200 3 ReadParameter.READ_RESTART powerUp)
      [addrRxEvent, rxneEvent 0xA1, rxneEvent 0xB2, rxneEvent 0xC3]).busyState =
      BusyState.BUSY :=
  ⟨(read_restart_holds_bus stm32f10x powerUp 200 addrRxEvent
    [rxneEvent 0xA1, rxneEvent 0xB2, rxneEvent 0xC3] (by decide) (by decide) (by decide)
    (by decide) [addrRxEvent, rxneEvent 0xA1] [rxneEvent 0xC3] (rxneEvent 0xB2) rfl).1,
    by decide, by decide⟩

end I2c2
